import Mathlib

/-! # Primal-stall event handler: decision logic

A shallow embedding of the two decision functions of `src/event_primalstall.c`,
`significant` (lines 58-95) and `shouldStop` (lines 114-133), together with the
arithmetic of the C type `double` (`SCIP_Real`) they rely on.

Modelling conventions:

* A `SCIP_Real` is either a finite value (a rational), `+inf`, `-inf` or NaN.  The
  values of the type `double` are the binary64 numbers; the model admits every rational
  as a finite value, so that what is proved holds of the binary64 numbers in particular.
* Subtraction, multiplication and division round their exact result as binary64
  arithmetic does: to the nearest number of the format, ties to the even significand
  (`round64`), with gradual underflow at the exponent `-1022` and overflow to an infinity
  from `2^1024 - 2^970` on.  The special values follow IEEE 754 (`inf - inf = NaN`,
  `0 * inf = NaN`, every ordered comparison with NaN is false, `NaN != x` is true).
  Signed zeros are not distinguished; the only division of the program divides by a
  converted `int`, whose zero is `+0.0`.
* `abs` in the source is the C library function `int abs(int)`: the `double`
  argument is first converted to `int` (truncation toward zero).  The conversion of
  a value whose truncation is not representable, and `abs(INT_MIN)`, are undefined
  in C and are reported as `Fault.undefined`.
* A failing `assert` is reported as `Fault.assertion`.
* The `printf` diagnostics of both functions are not modelled.
-/

namespace PrimalStall

/-- Values of the C type `double`, called `SCIP_Real` in the source. -/
inductive SCIP_Real where
  | fin (q : ℚ)
  | pinf
  | ninf
  | nan
  deriving DecidableEq, Repr

/-- The objective sense `SCIP_OBJSENSE`; `MINIMIZE` is `+1` and `MAXIMIZE` is `-1`
in the enumeration of the host. -/
inductive SCIP_OBJSENSE where
  | MINIMIZE
  | MAXIMIZE
  deriving DecidableEq, Repr

/-- Ways in which a call can end without returning a value. -/
inductive Fault where
  | undefined
  | assertion
  deriving DecidableEq, Repr

/-! ## Rounding to binary64 -/

/-- Rounding of a rational to the nearest integer, ties to the even one. -/
def roundHalfEven (t : ℚ) : Int :=
  if t - ⌊t⌋ < 1 / 2 then ⌊t⌋
  else if 1 / 2 < t - ⌊t⌋ then ⌊t⌋ + 1
  else if ⌊t⌋ % 2 = 0 then ⌊t⌋ else ⌊t⌋ + 1

/-- The integer `n` is nearest to `t`, and even when `t` lies midway between two
integers. -/
def IsNearestEven (t : ℚ) (n : Int) : Prop :=
  |t - n| < 1 / 2 ∨ (|t - n| = 1 / 2 ∧ n % 2 = 0)

/-- The exponent of the binade of a positive `x`, that is the `e` with
`2^e <= x < 2^(e+1)`, but not below `-1022`, the exponent of the subnormal numbers. -/
def binade (x : ℚ) : Int := max (Int.log 2 x) (-1022)

/-- The spacing of the binary64 numbers in the binade of `x`: 53 significant bits. -/
def ulp (x : ℚ) : ℚ := 2 ^ (binade x - 52)

/-- A positive rational rounded to the nearest multiple of the spacing of its binade,
ties to the even multiple. -/
def roundMagnitude (x : ℚ) : ℚ := roundHalfEven (x / ulp x) * ulp x

namespace SCIP_Real

/-- The constant `INFINITY` of `math.h`. -/
def INFINITY : SCIP_Real := pinf

/-- An infinity carrying the sign of `s`; NaN when `s` is zero. -/
def signedInf (s : ℚ) : SCIP_Real :=
  if 0 < s then pinf else if s < 0 then ninf else nan

/-- A value is finite when it is neither an infinity nor NaN. -/
def isFinite : SCIP_Real → Bool
  | fin _ => true
  | _ => false

/-- Unary minus. -/
def neg : SCIP_Real → SCIP_Real
  | fin a => fin (-a)
  | pinf => ninf
  | ninf => pinf
  | nan => nan

/-- The binary64 number nearest to the rational `x`, ties to even; an infinity when the
rounded magnitude reaches `2^1024`. -/
def round64 (x : ℚ) : SCIP_Real :=
  if x = 0 then fin 0
  else if (2 : ℚ) ^ (1024 : ℤ) ≤ roundMagnitude |x| then (if 0 < x then pinf else ninf)
  else fin (if 0 < x then roundMagnitude |x| else -roundMagnitude |x|)

/-- Subtraction `x - y`, rounded. -/
def sub : SCIP_Real → SCIP_Real → SCIP_Real
  | fin a, fin b => round64 (a - b)
  | fin _, pinf => ninf
  | fin _, ninf => pinf
  | pinf, fin _ => pinf
  | pinf, ninf => pinf
  | pinf, pinf => nan
  | ninf, fin _ => ninf
  | ninf, pinf => ninf
  | ninf, ninf => nan
  | nan, _ => nan
  | _, nan => nan

/-- Multiplication `x * y`, rounded. -/
def mul : SCIP_Real → SCIP_Real → SCIP_Real
  | fin a, fin b => round64 (a * b)
  | fin a, pinf => signedInf a
  | fin a, ninf => signedInf (-a)
  | pinf, fin b => signedInf b
  | ninf, fin b => signedInf (-b)
  | pinf, pinf => pinf
  | pinf, ninf => ninf
  | ninf, pinf => ninf
  | ninf, ninf => pinf
  | nan, _ => nan
  | _, nan => nan

/-- Division `x / y`, rounded; a zero divisor is `+0.0`. -/
def div : SCIP_Real → SCIP_Real → SCIP_Real
  | fin a, fin b => if b = 0 then signedInf a else round64 (a / b)
  | fin _, pinf => fin 0
  | fin _, ninf => fin 0
  | pinf, fin b => if b < 0 then ninf else pinf
  | ninf, fin b => if b < 0 then pinf else ninf
  | pinf, pinf => nan
  | pinf, ninf => nan
  | ninf, pinf => nan
  | ninf, ninf => nan
  | nan, _ => nan
  | _, nan => nan

/-- The comparison `x <= y`. -/
def le : SCIP_Real → SCIP_Real → Bool
  | nan, _ => false
  | _, nan => false
  | fin a, fin b => decide (a ≤ b)
  | ninf, _ => true
  | _, pinf => true
  | fin _, ninf => false
  | pinf, _ => false

/-- The comparison `x < y`. -/
def lt : SCIP_Real → SCIP_Real → Bool
  | nan, _ => false
  | _, nan => false
  | fin a, fin b => decide (a < b)
  | ninf, ninf => false
  | ninf, _ => true
  | pinf, _ => false
  | fin _, pinf => true
  | fin _, ninf => false

/-- The comparison `x > y`. -/
def gt (x y : SCIP_Real) : Bool := lt y x

/-- The comparison `x >= y`. -/
def ge (x y : SCIP_Real) : Bool := le y x

/-- The comparison `x == y`. -/
def eq : SCIP_Real → SCIP_Real → Bool
  | fin a, fin b => decide (a = b)
  | pinf, pinf => true
  | ninf, ninf => true
  | _, _ => false

/-- The comparison `x != y`. -/
def ne (x y : SCIP_Real) : Bool := !(eq x y)

/-- Conversion of an `int` to `double` (exact for 32-bit integers). -/
def ofInt (n : Int) : SCIP_Real := fin (n : ℚ)

/-- The real absolute value, `fabs` of `math.h`. -/
def fabs : SCIP_Real → SCIP_Real
  | fin a => fin (if a < 0 then -a else a)
  | pinf => pinf
  | ninf => pinf
  | nan => nan

end SCIP_Real

open SCIP_Real

namespace C

/-- Largest value of the C type `int` (32 bits). -/
def INT_MAX : Int := 2147483647

/-- Smallest value of the C type `int` (32 bits). -/
def INT_MIN : Int := -2147483648

/-- Implicit conversion of a `double` argument to `int`: the value is truncated toward
zero; the behaviour is undefined when the truncated value is not representable. -/
def toInt : SCIP_Real → Except Fault Int
  | .fin q =>
    if INT_MIN ≤ q.num.tdiv q.den ∧ q.num.tdiv q.den ≤ INT_MAX then
      .ok (q.num.tdiv q.den)
    else .error .undefined
  | _ => .error .undefined

/-- The library function `int abs(int)`; undefined at `INT_MIN`. -/
def abs (n : Int) : Except Fault Int :=
  if n = INT_MIN then .error .undefined else .ok (n.natAbs : Int)

end C

/-- The directed improvement computed at lines 72-77 of `significant`:
`old - new` when minimizing, `new - old` when maximizing. -/
def improvement (old new : SCIP_Real) : SCIP_OBJSENSE → SCIP_Real
  | .MINIMIZE => sub old new
  | .MAXIMIZE => sub new old

/-- The function `significant` (lines 58-95). -/
def significant (old new abstol reltol : SCIP_Real) (objsense : SCIP_OBJSENSE) :
    Except Fault Bool :=
  if le (improvement old new objsense) (fin 0) then
    .ok false
  else if gt (improvement old new objsense) abstol then
    .ok true
  else if ne old (fin 0) then do
    let i ← C.toInt old
    let d ← C.abs i
    pure (gt (div (improvement old new objsense) (ofInt d)) reltol)
  else if ne new (fin 0) then do
    let i ← C.toInt new
    let d ← C.abs i
    pure (gt (div (improvement old new objsense) (ofInt d)) reltol)
  else
    .error .assertion

/-- The function `shouldStop` (lines 114-133). -/
def shouldStop (minimprove maximprove fractotal lastsol current : SCIP_Real) : Bool :=
  if le (sub current lastsol) minimprove then
    false
  else if gt (sub current lastsol) maximprove then
    true
  else if gt (sub current lastsol) (mul fractotal current) then
    true
  else
    false

/-- The relative rule as the specification words it: the ratio of the improvement to
the real absolute value of the reference value must exceed `reltol`. -/
def specRelativeRule (improvement reference reltol : SCIP_Real) : Bool :=
  SCIP_Real.gt (SCIP_Real.div improvement (SCIP_Real.fabs reference)) reltol

/-! ## The event handler

The handler data of lines 39-51, the two wrappers `significantImprovement` and
`timeIsUp`, and the execution callback `eventExecPrimalstall` (lines 348-383).  The
values the callback obtains from the host (the objective value of the best solution,
the objective sense, the total solving time) are carried by the event. -/

/-- The handler data `struct SCIP_EventhdlrData`: five parameters and the runtime
state. -/
structure SCIP_EventhdlrData where
  abstol : SCIP_Real
  reltol : SCIP_Real
  mintime : SCIP_Real
  maxtime : SCIP_Real
  fractime : SCIP_Real
  lastsolval : SCIP_Real
  lastsoltime : SCIP_Real
  deriving DecidableEq, Repr

/-- Default value of the parameter `abstol`. -/
def DEFAULT_ABSTOL : SCIP_Real := INFINITY

/-- Default value of the parameter `reltol`. -/
def DEFAULT_RELTOL : SCIP_Real := fin 0.01

/-- Default value of the parameter `mintime`. -/
def DEFAULT_MINTIME : SCIP_Real := fin 0.0

/-- Default value of the parameter `maxtime`. -/
def DEFAULT_MAXTIME : SCIP_Real := INFINITY

/-- Default value of the parameter `fractime`. -/
def DEFAULT_FRACTIME : SCIP_Real := fin 1.0

/-- Initial value of `lastsolval`: no solution yet. -/
def DEFAULT_LASTSOLVAL : SCIP_Real := INFINITY

/-- Initial value of `lastsoltime`: the beginning of the solving time. -/
def DEFAULT_LASTSOLTIME : SCIP_Real := fin 0.0

/-- The handler data as `SCIPincludeEventHdlrPrimalstall` initializes it
(lines 402-409). -/
def defaultData : SCIP_EventhdlrData :=
  ⟨DEFAULT_ABSTOL, DEFAULT_RELTOL, DEFAULT_MINTIME, DEFAULT_MAXTIME, DEFAULT_FRACTIME,
    DEFAULT_LASTSOLVAL, DEFAULT_LASTSOLTIME⟩

/-- Handler data with the given five parameters and the initial runtime state. -/
def initialData (abstol reltol mintime maxtime fractime : SCIP_Real) :
    SCIP_EventhdlrData :=
  ⟨abstol, reltol, mintime, maxtime, fractime, DEFAULT_LASTSOLVAL, DEFAULT_LASTSOLTIME⟩

/-- The function `significantImprovement` (lines 97-112). -/
def significantImprovement (eventhdlrdata : SCIP_EventhdlrData) (newsolval : SCIP_Real)
    (objsense : SCIP_OBJSENSE) : Except Fault Bool :=
  if eq eventhdlrdata.lastsolval INFINITY then
    .ok true
  else
    significant eventhdlrdata.lastsolval newsolval eventhdlrdata.abstol
      eventhdlrdata.reltol objsense

/-- The function `timeIsUp` (lines 135-147). -/
def timeIsUp (eventhdlrdata : SCIP_EventhdlrData) (currenttime : SCIP_Real) : Bool :=
  shouldStop eventhdlrdata.mintime eventhdlrdata.maxtime eventhdlrdata.fractime
    eventhdlrdata.lastsoltime currenttime

/-- An event delivered to the callback, with what the callback reads from the host
while handling it.  `BESTSOLFOUND` carries the original objective value of the best
solution, the objective sense and the total time; every other event (the `default`
case, in practice `NODESOLVED`) carries the total time. -/
inductive SCIP_EVENT where
  | BESTSOLFOUND (newsolval : SCIP_Real) (objsense : SCIP_OBJSENSE) (totaltime : SCIP_Real)
  | NODESOLVED (totaltime : SCIP_Real)
  deriving DecidableEq, Repr

/-- The total time the host reports while the event is handled. -/
def SCIP_EVENT.totaltime : SCIP_EVENT → SCIP_Real
  | .BESTSOLFOUND _ _ t => t
  | .NODESOLVED t => t

/-- The callback `eventExecPrimalstall` (lines 348-383): the handler data after the
call, and whether `SCIPinterruptSolve` was called. -/
def eventExecPrimalstall (eventhdlrdata : SCIP_EventhdlrData) :
    SCIP_EVENT → Except Fault (SCIP_EventhdlrData × Bool)
  | .BESTSOLFOUND newsolval objsense totaltime => do
    let s ← significantImprovement eventhdlrdata newsolval objsense
    if s then
      pure (⟨eventhdlrdata.abstol, eventhdlrdata.reltol, eventhdlrdata.mintime,
        eventhdlrdata.maxtime, eventhdlrdata.fractime, newsolval, totaltime⟩, false)
    else
      pure (eventhdlrdata, false)
  | .NODESOLVED totaltime =>
    if timeIsUp eventhdlrdata totaltime then
      pure (eventhdlrdata, true)
    else
      pure (eventhdlrdata, false)

/-- One executed callback of a run: the data before it, the event, the data after it
and whether it interrupted the solver. -/
structure Step where
  before : SCIP_EventhdlrData
  event : SCIP_EVENT
  after : SCIP_EventhdlrData
  interrupt : Bool
  deriving DecidableEq, Repr

/-- The run of the handler over a sequence of events: one step per callback, up to
the first callback that ends in a fault. -/
def trace (d : SCIP_EventhdlrData) : List SCIP_EVENT → List Step
  | [] => []
  | e :: es =>
    match eventExecPrimalstall d e with
    | .error _ => []
    | .ok (d', b) => ⟨d, e, d', b⟩ :: trace d' es

/-- The handler data at the end of a run. -/
def finalData (d : SCIP_EventhdlrData) : List SCIP_EVENT → SCIP_EventhdlrData
  | [] => d
  | e :: es =>
    match eventExecPrimalstall d e with
    | .error _ => d
    | .ok (d', _) => finalData d' es

/-- A step accepted its candidate: the event was `BESTSOLFOUND` and
`significantImprovement` returned TRUE, so that the state was written. -/
def Step.accepted (s : Step) : Bool :=
  match s.event with
  | .BESTSOLFOUND newsolval objsense _ =>
    match significantImprovement s.before newsolval objsense with
    | .ok true => true
    | _ => false
  | .NODESOLVED _ => false

/-- A time of the documented domain: finite and not negative. -/
def validTime (t : SCIP_Real) : Bool := isFinite t && le (fin 0) t

theorem roundHalfEven_spec (t : ℚ) : IsNearestEven t (roundHalfEven t) := by
  have h0 : 0 ≤ t - ⌊t⌋ := sub_nonneg.mpr (Int.floor_le t)
  have h1 : t - ⌊t⌋ < 1 := by
    have := Int.lt_floor_add_one t
    linarith
  unfold roundHalfEven IsNearestEven
  by_cases ha : t - ⌊t⌋ < 1 / 2
  · rw [if_pos ha]
    left
    rw [abs_of_nonneg h0]
    exact ha
  · rw [if_neg ha]
    by_cases hb : 1 / 2 < t - ⌊t⌋
    · rw [if_pos hb]
      left
      push_cast
      rw [abs_of_nonpos (by linarith)]
      linarith
    · rw [if_neg hb]
      have heq : t - ⌊t⌋ = 1 / 2 := le_antisymm (not_lt.mp hb) (not_lt.mp ha)
      by_cases hc : ⌊t⌋ % 2 = 0
      · rw [if_pos hc]
        right
        exact ⟨by rw [abs_of_nonneg h0]; exact heq, hc⟩
      · rw [if_neg hc]
        right
        refine ⟨?_, by omega⟩
        push_cast
        rw [abs_of_nonpos (by linarith)]
        linarith

theorem IsNearestEven.dist_le {t : ℚ} {n : Int} (h : IsNearestEven t n) :
    |t - n| ≤ 1 / 2 := by
  rcases h with h | h
  · exact h.le
  · exact h.1.le

theorem IsNearestEven.unique {t : ℚ} {n m : Int} (hn : IsNearestEven t n)
    (hm : IsNearestEven t m) : n = m := by
  have an := abs_le.mp hn.dist_le
  have am := abs_le.mp hm.dist_le
  by_contra hne
  rcases lt_or_gt_of_ne hne with hlt | hgt
  · have hc : (n : ℚ) + 1 ≤ m := by exact_mod_cast hlt
    have e1 : t - n = 1 / 2 := by linarith [an.2, am.1]
    have e2 : t - m = -(1 / 2) := by linarith [an.2, am.1]
    have hmn : (m : ℚ) = n + 1 := by linarith
    have hmn' : m = n + 1 := by exact_mod_cast hmn
    have pn : n % 2 = 0 := by
      rcases hn with h | h
      · rw [e1, abs_of_pos (by norm_num)] at h; exact absurd h (lt_irrefl _)
      · exact h.2
    have pm : m % 2 = 0 := by
      rcases hm with h | h
      · rw [e2, abs_neg, abs_of_pos (by norm_num)] at h; exact absurd h (lt_irrefl _)
      · exact h.2
    omega
  · have hc : (m : ℚ) + 1 ≤ n := by exact_mod_cast hgt
    have e1 : t - m = 1 / 2 := by linarith [am.2, an.1]
    have e2 : t - n = -(1 / 2) := by linarith [am.2, an.1]
    have hmn : (n : ℚ) = m + 1 := by linarith
    have hmn' : n = m + 1 := by exact_mod_cast hmn
    have pm : m % 2 = 0 := by
      rcases hm with h | h
      · rw [e1, abs_of_pos (by norm_num)] at h; exact absurd h (lt_irrefl _)
      · exact h.2
    have pn : n % 2 = 0 := by
      rcases hn with h | h
      · rw [e2, abs_neg, abs_of_pos (by norm_num)] at h; exact absurd h (lt_irrefl _)
      · exact h.2
    omega

theorem roundHalfEven_eq {t : ℚ} {n : Int} (h : IsNearestEven t n) :
    roundHalfEven t = n :=
  (roundHalfEven_spec t).unique h

theorem roundHalfEven_intCast (n : Int) : roundHalfEven (n : ℚ) = n :=
  roundHalfEven_eq (Or.inl (by simp))

theorem roundHalfEven_mono {s t : ℚ} (h : s ≤ t) : roundHalfEven s ≤ roundHalfEven t := by
  have hs := abs_le.mp (roundHalfEven_spec s).dist_le
  have ht := abs_le.mp (roundHalfEven_spec t).dist_le
  by_contra hlt
  have hc : (roundHalfEven t : ℚ) + 1 ≤ roundHalfEven s := by
    exact_mod_cast not_le.mp hlt
  have hst : s = t := le_antisymm h (by linarith [hs.1, ht.2])
  rw [hst] at hlt
  exact hlt le_rfl

theorem roundHalfEven_neg (t : ℚ) : roundHalfEven (-t) = -roundHalfEven t := by
  apply roundHalfEven_eq
  have h := roundHalfEven_spec t
  unfold IsNearestEven at h ⊢
  have e : |(-t) - ((-roundHalfEven t : Int) : ℚ)| = |t - roundHalfEven t| := by
    push_cast
    rw [← abs_neg]
    congr 1
    ring
  rw [e]
  rcases h with h | h
  · exact Or.inl h
  · exact Or.inr ⟨h.1, by omega⟩

/-! ## Rounding to binary64: magnitudes -/

theorem ulp_pos (x : ℚ) : 0 < ulp x := zpow_pos (by norm_num) _

theorem binade_mono {x y : ℚ} (hx : 0 < x) (h : x ≤ y) : binade x ≤ binade y :=
  max_le_max (Int.log_mono_right hx h) le_rfl

theorem lt_zpow_binade (x : ℚ) : x < 2 ^ (binade x + 1) := by
  have h1 : x < ((2 : ℕ) : ℚ) ^ (Int.log 2 x + 1) := Int.lt_zpow_succ_log_self (by norm_num) x
  have h2 : ((2 : ℕ) : ℚ) ^ (Int.log 2 x + 1) ≤ ((2 : ℕ) : ℚ) ^ (binade x + 1) :=
    zpow_le_zpow_right₀ (by norm_num) (by unfold binade; omega)
  have h3 := lt_of_lt_of_le h1 h2
  simpa using h3

theorem zpow_binade_le {x : ℚ} (hx : 0 < x) (hb : -1022 < binade x) : 2 ^ binade x ≤ x := by
  have hlog : binade x = Int.log 2 x := by unfold binade at hb ⊢; omega
  have h1 : ((2 : ℕ) : ℚ) ^ Int.log 2 x ≤ x := Int.zpow_log_le_self (by norm_num) hx
  rw [hlog]
  simpa using h1

theorem binade_eq {x : ℚ} {e : Int} (hx : 0 < x) (he : -1022 ≤ e) (hlo : 2 ^ e ≤ x)
    (hhi : x < 2 ^ (e + 1)) : binade x = e := by
  have h1 : e ≤ Int.log 2 x :=
    (Int.zpow_le_iff_le_log (by norm_num) hx).mp (by simpa using hlo)
  have h2 : Int.log 2 x < e + 1 :=
    (Int.lt_zpow_iff_log_lt (by norm_num) hx).mp (by simpa using hhi)
  unfold binade
  omega

theorem binade_subnormal {x : ℚ} (hx : 0 < x) (hhi : x < 2 ^ (-1022 : ℤ)) :
    binade x = -1022 := by
  have h2 : Int.log 2 x < -1022 :=
    (Int.lt_zpow_iff_log_lt (by norm_num) hx).mp (by simpa using hhi)
  unfold binade
  omega

theorem two_zpow_53_mul_ulp (x : ℚ) :
    (9007199254740992 : ℚ) * ulp x = 2 ^ (binade x + 1) := by
  unfold ulp
  rw [show (9007199254740992 : ℚ) = 2 ^ (53 : ℤ) by norm_num,
    ← zpow_add₀ (by norm_num : (2 : ℚ) ≠ 0)]
  congr 1
  ring

theorem two_zpow_52_mul_ulp (x : ℚ) :
    (4503599627370496 : ℚ) * ulp x = 2 ^ binade x := by
  unfold ulp
  rw [show (4503599627370496 : ℚ) = 2 ^ (52 : ℤ) by norm_num,
    ← zpow_add₀ (by norm_num : (2 : ℚ) ≠ 0)]
  congr 1
  ring

theorem roundMagnitude_nonneg {x : ℚ} (hx : 0 ≤ x) : 0 ≤ roundMagnitude x := by
  unfold roundMagnitude
  have h : (0 : Int) ≤ roundHalfEven (x / ulp x) := by
    have := roundHalfEven_mono (div_nonneg hx (ulp_pos x).le)
    rwa [show (0 : ℚ) = ((0 : Int) : ℚ) by simp, roundHalfEven_intCast] at this
  exact mul_nonneg (by exact_mod_cast h) (ulp_pos x).le

theorem roundMagnitude_le_zpow (x : ℚ) : roundMagnitude x ≤ 2 ^ (binade x + 1) := by
  have hu := ulp_pos x
  have h1 : x / ulp x ≤ ((9007199254740992 : Int) : ℚ) := by
    rw [div_le_iff₀ hu]
    push_cast
    rw [two_zpow_53_mul_ulp x]
    exact (lt_zpow_binade x).le
  have h2 := roundHalfEven_mono h1
  rw [roundHalfEven_intCast] at h2
  have h3 : (roundHalfEven (x / ulp x) : ℚ) ≤ 9007199254740992 := by
    exact_mod_cast h2
  unfold roundMagnitude
  calc (roundHalfEven (x / ulp x) : ℚ) * ulp x ≤ 9007199254740992 * ulp x :=
        mul_le_mul_of_nonneg_right h3 hu.le
    _ = 2 ^ (binade x + 1) := two_zpow_53_mul_ulp x

theorem zpow_le_roundMagnitude {x : ℚ} (hx : 0 < x) (hb : -1022 < binade x) :
    2 ^ binade x ≤ roundMagnitude x := by
  have hu := ulp_pos x
  have h1 : ((4503599627370496 : Int) : ℚ) ≤ x / ulp x := by
    rw [le_div_iff₀ hu]
    push_cast
    rw [two_zpow_52_mul_ulp x]
    exact zpow_binade_le hx hb
  have h2 := roundHalfEven_mono h1
  rw [roundHalfEven_intCast] at h2
  have h3 : (4503599627370496 : ℚ) ≤ (roundHalfEven (x / ulp x) : ℚ) := by
    exact_mod_cast h2
  unfold roundMagnitude
  calc (2 : ℚ) ^ binade x = 4503599627370496 * ulp x := (two_zpow_52_mul_ulp x).symm
    _ ≤ (roundHalfEven (x / ulp x) : ℚ) * ulp x := mul_le_mul_of_nonneg_right h3 hu.le

theorem roundMagnitude_mono {x y : ℚ} (hx : 0 < x) (h : x ≤ y) :
    roundMagnitude x ≤ roundMagnitude y := by
  have hb := binade_mono hx h
  rcases eq_or_lt_of_le hb with heq | hlt
  · have hu : ulp x = ulp y := by unfold ulp; rw [heq]
    unfold roundMagnitude
    rw [hu]
    have h1 : x / ulp y ≤ y / ulp y := div_le_div_of_nonneg_right h (ulp_pos y).le
    have h2 := roundHalfEven_mono h1
    exact mul_le_mul_of_nonneg_right (by exact_mod_cast h2) (ulp_pos y).le
  · have hy : 0 < y := lt_of_lt_of_le hx h
    have hby : -1022 < binade y := by
      have : -1022 ≤ binade x := le_max_right _ _
      omega
    calc roundMagnitude x ≤ 2 ^ (binade x + 1) := roundMagnitude_le_zpow x
      _ ≤ 2 ^ binade y := zpow_le_zpow_right₀ (by norm_num) (by omega)
      _ ≤ roundMagnitude y := zpow_le_roundMagnitude hy hby

/-! ## Rounding to binary64: values -/

theorem SCIP_Real.le_of_le_of_le (x y z : SCIP_Real) (h : le x y = true)
    (hz : le y z = true) : le x z = true := by
  cases x <;> cases y <;> cases z <;> simp_all [le]
  exact h.trans hz

theorem SCIP_Real.le_neg_neg (x y : SCIP_Real) : le (neg x) (neg y) = le y x := by
  cases x <;> cases y <;> simp [le, neg]

theorem SCIP_Real.neg_neg (x : SCIP_Real) : neg (neg x) = x := by
  cases x <;> simp [neg]

theorem SCIP_Real.round64_zero : round64 0 = fin 0 := by
  simp [round64]

theorem SCIP_Real.round64_of_pos {x : ℚ} (hx : 0 < x) :
    round64 x = if (2 : ℚ) ^ (1024 : ℤ) ≤ roundMagnitude x then pinf
      else fin (roundMagnitude x) := by
  unfold round64
  rw [if_neg hx.ne', abs_of_pos hx]
  simp only [hx, if_true]

theorem SCIP_Real.round64_neg (x : ℚ) : round64 (-x) = neg (round64 x) := by
  rcases lt_trichotomy x 0 with hx | hx | hx
  · have h1 : ¬ (0 < x) := not_lt.mpr hx.le
    have h2 : (0 : ℚ) < -x := by linarith
    unfold round64
    rw [if_neg h2.ne', if_neg hx.ne, abs_neg]
    by_cases ho : (2 : ℚ) ^ (1024 : ℤ) ≤ roundMagnitude |x|
    · simp [ho, h1, h2, neg]
    · simp [ho, h1, h2, neg]
  · subst hx
    simp [round64, neg]
  · have h1 : ¬ ((0 : ℚ) < -x) := by linarith
    have h2 : -x ≠ 0 := by linarith
    unfold round64
    rw [if_neg h2, if_neg hx.ne', abs_neg]
    by_cases ho : (2 : ℚ) ^ (1024 : ℤ) ≤ roundMagnitude |x|
    · simp [ho, h1, hx, neg]
    · simp [ho, h1, hx, neg]

theorem SCIP_Real.round64_ne_nan (x : ℚ) : round64 x ≠ nan := by
  unfold round64
  split_ifs <;> simp

theorem SCIP_Real.round64_nonneg {x : ℚ} (hx : 0 ≤ x) : le (fin 0) (round64 x) = true := by
  rcases eq_or_lt_of_le hx with h | h
  · rw [← h, SCIP_Real.round64_zero]; simp [le]
  · rw [SCIP_Real.round64_of_pos h]
    split_ifs
    · simp [le]
    · simpa [le] using roundMagnitude_nonneg h.le

theorem SCIP_Real.round64_nonpos {x : ℚ} (hx : x ≤ 0) : le (round64 x) (fin 0) = true := by
  have h := SCIP_Real.round64_nonneg (neg_nonneg.mpr hx)
  rw [SCIP_Real.round64_neg] at h
  rw [← SCIP_Real.le_neg_neg (fin 0) (round64 x)]
  simpa [neg] using h

theorem SCIP_Real.round64_mono_of_pos {x y : ℚ} (hx : 0 < x) (h : x ≤ y) :
    le (round64 x) (round64 y) = true := by
  have hy : 0 < y := lt_of_lt_of_le hx h
  have hm := roundMagnitude_mono hx h
  rw [SCIP_Real.round64_of_pos hx, SCIP_Real.round64_of_pos hy]
  by_cases hoy : (2 : ℚ) ^ (1024 : ℤ) ≤ roundMagnitude y
  · rw [if_pos hoy]
    split_ifs <;> simp [le]
  · rw [if_neg hoy]
    have hox : ¬ (2 : ℚ) ^ (1024 : ℤ) ≤ roundMagnitude x := fun hc => hoy (hc.trans hm)
    rw [if_neg hox]
    simpa [le] using hm

/-- Rounding is monotone. -/
theorem SCIP_Real.round64_mono {x y : ℚ} (h : x ≤ y) :
    le (round64 x) (round64 y) = true := by
  rcases lt_trichotomy x 0 with hx | hx | hx
  · rcases lt_or_le y 0 with hy | hy
    · have h1 := SCIP_Real.round64_mono_of_pos (neg_pos.mpr hy) (neg_le_neg h)
      rw [SCIP_Real.round64_neg, SCIP_Real.round64_neg, SCIP_Real.le_neg_neg] at h1
      exact h1
    · exact SCIP_Real.le_of_le_of_le _ _ _ (SCIP_Real.round64_nonpos hx.le)
        (SCIP_Real.round64_nonneg hy)
  · subst hx
    rw [SCIP_Real.round64_zero]
    exact SCIP_Real.round64_nonneg h
  · exact SCIP_Real.round64_mono_of_pos hx h

/-- Evaluation of the rounding of a positive rational from its binade and the nearest
integer multiple of the spacing. -/
theorem SCIP_Real.round64_eval {x : ℚ} {e n : Int} (hx : 0 < x) (hb : binade x = e)
    (hn : IsNearestEven (x / 2 ^ (e - 52)) n)
    (hov : (n : ℚ) * 2 ^ (e - 52) < 2 ^ (1024 : ℤ)) :
    round64 x = fin ((n : ℚ) * 2 ^ (e - 52)) := by
  have hr : roundMagnitude x = (n : ℚ) * 2 ^ (e - 52) := by
    unfold roundMagnitude ulp
    rw [hb, roundHalfEven_eq hn]
  rw [SCIP_Real.round64_of_pos hx, hr, if_neg (not_le.mpr hov)]

/-- A positive dyadic rational with a significand below `2^53`, an exponent not below
`-1074` and a magnitude below `2^1024` is a binary64 number: rounding leaves it as it
is. -/
theorem SCIP_Real.round64_dyadic {x : ℚ} (m : ℕ) (k : Int) (hx : x = (m : ℚ) * 2 ^ k)
    (hm0 : 0 < m) (hm : m < 9007199254740992) (hk : -1074 ≤ k)
    (hov : x < 2 ^ (1024 : ℤ)) : round64 x = fin x := by
  have h2 : (0 : ℚ) < 2 ^ k := zpow_pos (by norm_num) _
  have hxpos : 0 < x := by
    rw [hx]
    exact mul_pos (by exact_mod_cast hm0) h2
  have hxlt : x < 2 ^ (k + 53) := by
    rw [hx, zpow_add₀ (by norm_num : (2 : ℚ) ≠ 0), mul_comm]
    have : (m : ℚ) < 2 ^ (53 : ℤ) := by
      have : (m : ℚ) < 9007199254740992 := by exact_mod_cast hm
      calc (m : ℚ) < 9007199254740992 := this
        _ = 2 ^ (53 : ℤ) := by norm_num
    exact mul_lt_mul_of_pos_left this h2
  have hlog : Int.log 2 x < k + 53 :=
    (Int.lt_zpow_iff_log_lt (by norm_num) hxpos).mp (by simpa using hxlt)
  have hble : binade x ≤ k + 52 := by unfold binade; omega
  obtain ⟨b, hb⟩ : ∃ b : Int, binade x = b := ⟨_, rfl⟩
  rw [hb] at hble
  obtain ⟨d, hd⟩ : ∃ d : ℕ, (d : Int) = k + 52 - b := ⟨(k + 52 - b).toNat, by omega⟩
  have hke : k = (d : Int) + (b - 52) := by omega
  have hne : (2 : ℚ) ^ (b - 52) ≠ 0 := (zpow_pos (by norm_num) _).ne'
  have hdiv : x / 2 ^ (b - 52) = (((m * 2 ^ d : ℕ) : Int) : ℚ) := by
    rw [div_eq_iff hne, hx]
    conv_lhs => rw [hke, zpow_add₀ (by norm_num : (2 : ℚ) ≠ 0), zpow_natCast]
    push_cast
    ring
  have hn : IsNearestEven (x / 2 ^ (b - 52)) ((m * 2 ^ d : ℕ) : Int) := by
    rw [hdiv]
    exact Or.inl (by simp)
  have hval : (((m * 2 ^ d : ℕ) : Int) : ℚ) * 2 ^ (b - 52) = x := by
    rw [← hdiv]
    exact div_mul_cancel₀ _ hne
  have := SCIP_Real.round64_eval hxpos hb hn (by rw [hval]; exact hov)
  rw [this, hval]

/-- The integers of magnitude below `2^53` are binary64 numbers. -/
theorem SCIP_Real.round64_intCast (n : Int) (hn : |n| < 9007199254740992) :
    round64 (n : ℚ) = fin (n : ℚ) := by
  have hbig : (9007199254740992 : ℚ) < 2 ^ (1024 : ℤ) := by
    rw [show (9007199254740992 : ℚ) = 2 ^ (53 : ℤ) by norm_num]
    exact zpow_lt_zpow_right₀ (by norm_num) (by norm_num)
  rcases lt_trichotomy n 0 with h | h | h
  · have hm : (n.natAbs : Int) = -n := by omega
    have hq : ((n.natAbs : ℕ) : ℚ) = -(n : ℚ) := by
      rw [← Int.cast_natCast, hm]
      push_cast
      rfl
    have h1 := SCIP_Real.round64_dyadic (x := -(n : ℚ)) n.natAbs 0 (by simp [hq])
      (by omega) (by rw [abs_of_neg h] at hn; omega) (by norm_num)
      (by
        have : -(n : ℚ) < 9007199254740992 := by
          rw [abs_of_neg h] at hn; exact_mod_cast hn
        exact this.trans hbig)
    rw [SCIP_Real.round64_neg] at h1
    have h2 := congrArg neg h1
    rw [SCIP_Real.neg_neg] at h2
    rw [h2]
    simp [neg]
  · subst h
    simpa using SCIP_Real.round64_zero
  · have hm : (n.natAbs : Int) = n := by omega
    have hq : ((n.natAbs : ℕ) : ℚ) = (n : ℚ) := by
      rw [← Int.cast_natCast, hm]
    exact SCIP_Real.round64_dyadic (x := (n : ℚ)) n.natAbs 0 (by simp [hq])
      (by omega) (by rw [abs_of_pos h] at hn; omega) (by norm_num)
      (by
        have : (n : ℚ) < 9007199254740992 := by
          rw [abs_of_pos h] at hn; exact_mod_cast hn
        exact this.trans hbig)

/-! ## Bracketing of rounded results -/

/-- A convenient form of the fixed-point property: `x * 2^j` is a positive integer
below `2^53`, with `j <= 1074` and `x` below `2^53`. -/
theorem SCIP_Real.round64_anchor {x : ℚ} (m j : ℕ) (hx : x * 2 ^ j = (m : ℚ))
    (hm0 : 0 < m) (hm : m < 9007199254740992) (hj : j ≤ 1074)
    (hsmall : x < 9007199254740992) : round64 x = fin x := by
  have h2 : (2 : ℚ) ^ j ≠ 0 := pow_ne_zero _ (by norm_num)
  have hbig : (9007199254740992 : ℚ) < 2 ^ (1024 : ℤ) := by
    rw [show (9007199254740992 : ℚ) = 2 ^ (53 : ℤ) by norm_num]
    exact zpow_lt_zpow_right₀ (by norm_num) (by norm_num)
  refine SCIP_Real.round64_dyadic m (-(j : Int)) ?_ hm0 hm (by omega) (hsmall.trans hbig)
  rw [zpow_neg, zpow_natCast, ← hx]
  field_simp

/-- A rational between two binary64 numbers rounds to a finite value between them. -/
theorem SCIP_Real.round64_between {x lo hi : ℚ} (hlo : round64 lo = fin lo)
    (hhi : round64 hi = fin hi) (h1 : lo ≤ x) (h2 : x ≤ hi) :
    ∃ r : ℚ, round64 x = fin r ∧ lo ≤ r ∧ r ≤ hi := by
  have m1 := SCIP_Real.round64_mono h1
  have m2 := SCIP_Real.round64_mono h2
  rw [hlo] at m1
  rw [hhi] at m2
  cases hr : round64 x with
  | fin r =>
    rw [hr] at m1 m2
    exact ⟨r, rfl, by simpa [le] using m1, by simpa [le] using m2⟩
  | pinf => rw [hr] at m2; simp [le] at m2
  | ninf => rw [hr] at m1; simp [le] at m1
  | nan => rw [hr] at m1; simp [le] at m1

theorem SCIP_Real.sub_between {a b lo hi : ℚ} (hlo : round64 lo = fin lo)
    (hhi : round64 hi = fin hi) (h1 : lo ≤ a - b) (h2 : a - b ≤ hi) :
    ∃ r : ℚ, sub (fin a) (fin b) = fin r ∧ lo ≤ r ∧ r ≤ hi :=
  SCIP_Real.round64_between hlo hhi h1 h2

theorem SCIP_Real.mul_between {a b lo hi : ℚ} (hlo : round64 lo = fin lo)
    (hhi : round64 hi = fin hi) (h1 : lo ≤ a * b) (h2 : a * b ≤ hi) :
    ∃ r : ℚ, mul (fin a) (fin b) = fin r ∧ lo ≤ r ∧ r ≤ hi :=
  SCIP_Real.round64_between hlo hhi h1 h2

theorem SCIP_Real.div_between {a b lo hi : ℚ} (hb : b ≠ 0) (hlo : round64 lo = fin lo)
    (hhi : round64 hi = fin hi) (h1 : lo ≤ a / b) (h2 : a / b ≤ hi) :
    ∃ r : ℚ, SCIP_Real.div (fin a) (fin b) = fin r ∧ lo ≤ r ∧ r ≤ hi := by
  obtain ⟨r, hr, hr1, hr2⟩ := SCIP_Real.round64_between hlo hhi h1 h2
  exact ⟨r, by simp [SCIP_Real.div, hb, hr], hr1, hr2⟩

theorem SCIP_Real.sub_exact {a b : ℚ} (h : round64 (a - b) = fin (a - b)) :
    sub (fin a) (fin b) = fin (a - b) := h

theorem SCIP_Real.gt_eq_false_of_le (x y : SCIP_Real) (h : le x y = true) :
    gt x y = false := by
  cases x <;> cases y <;> simp_all [gt, lt, le]

/-- A rational `n / 2^j` with `|n| < 2^53` and `j <= 1074` is a binary64 number. -/
theorem SCIP_Real.round64_exact {x : ℚ} (j : ℕ) (n : Int) (hx : x * 2 ^ j = (n : ℚ))
    (hn : |n| < 9007199254740992) (hj : j ≤ 1074) : round64 x = fin x := by
  have h2 : (0 : ℚ) < 2 ^ j := pow_pos (by norm_num) _
  have h1 : (1 : ℚ) ≤ 2 ^ j := one_le_pow₀ (by norm_num)
  rcases lt_trichotomy n 0 with h | h | h
  · have hxneg : x < 0 := by
      have : x * 2 ^ j < 0 := by rw [hx]; exact_mod_cast h
      by_contra hc
      exact absurd (mul_nonneg (not_lt.mp hc) h2.le) (not_le.mpr this)
    have hm : ((n.natAbs : ℕ) : ℚ) = -(n : ℚ) := by
      rw [← Int.cast_natCast, show ((n.natAbs : ℕ) : Int) = -n by omega]
      push_cast
      rfl
    have hs : -x < 9007199254740992 := by
      have hb : -(n : ℚ) < 9007199254740992 := by
        rw [abs_of_neg h] at hn; exact_mod_cast hn
      have : -x ≤ -x * 2 ^ j := le_mul_of_one_le_right (by linarith) h1
      have e : -x * 2 ^ j = -(n : ℚ) := by rw [neg_mul, hx]
      linarith
    have ha := SCIP_Real.round64_anchor (x := -x) n.natAbs j
      (by rw [neg_mul, hx, hm]) (by omega) (by rw [abs_of_neg h] at hn; omega) hj hs
    rw [SCIP_Real.round64_neg] at ha
    have hb := congrArg neg ha
    rw [SCIP_Real.neg_neg] at hb
    rw [hb]
    simp [neg]
  · have hx0 : x = 0 := by
      rw [h, Int.cast_zero] at hx
      rcases mul_eq_zero.mp hx with h0 | h0
      · exact h0
      · exact absurd h0 h2.ne'
    rw [hx0, SCIP_Real.round64_zero]
  · have hxpos : 0 < x := by
      have : 0 < x * 2 ^ j := by rw [hx]; exact_mod_cast h
      by_contra hc
      exact absurd (mul_nonpos_of_nonpos_of_nonneg (not_lt.mp hc) h2.le) (not_le.mpr this)
    have hm : ((n.natAbs : ℕ) : ℚ) = (n : ℚ) := by
      rw [← Int.cast_natCast, show ((n.natAbs : ℕ) : Int) = n by omega]
    have hs : x < 9007199254740992 := by
      have hb : (n : ℚ) < 9007199254740992 := by
        rw [abs_of_pos h] at hn; exact_mod_cast hn
      have : x ≤ x * 2 ^ j := le_mul_of_one_le_right hxpos.le h1
      linarith
    exact SCIP_Real.round64_anchor n.natAbs j (by rw [hx, hm]) (by omega)
      (by rw [abs_of_pos h] at hn; omega) hj hs

theorem SCIP_Real.sub_eval {a b c : ℚ} (j : ℕ) (n : Int) (hc : a - b = c)
    (hx : c * 2 ^ j = (n : ℚ)) (hn : |n| < 9007199254740992) (hj : j ≤ 1074) :
    sub (fin a) (fin b) = fin c := by
  simp only [sub]
  rw [hc]
  exact SCIP_Real.round64_exact j n hx hn hj

theorem SCIP_Real.mul_eval {a b c : ℚ} (j : ℕ) (n : Int) (hc : a * b = c)
    (hx : c * 2 ^ j = (n : ℚ)) (hn : |n| < 9007199254740992) (hj : j ≤ 1074) :
    mul (fin a) (fin b) = fin c := by
  simp only [mul]
  rw [hc]
  exact SCIP_Real.round64_exact j n hx hn hj

theorem SCIP_Real.div_eval {a b c : ℚ} (j : ℕ) (n : Int) (hb : b ≠ 0) (hc : a / b = c)
    (hx : c * 2 ^ j = (n : ℚ)) (hn : |n| < 9007199254740992) (hj : j ≤ 1074) :
    SCIP_Real.div (fin a) (fin b) = fin c := by
  simp only [SCIP_Real.div]
  rw [if_neg hb, hc]
  exact SCIP_Real.round64_exact j n hx hn hj

/-! ## Auxiliary facts about the comparisons -/

theorem SCIP_Real.le_eq_false_of_gt (x y : SCIP_Real) (h : gt x y = true) :
    le x y = false := by
  cases x <;> cases y <;> simp_all [gt, lt, le]

theorem SCIP_Real.gt_eq_false_of_eq (x y : SCIP_Real) (h : eq x y = true) :
    gt x y = false := by
  cases x <;> cases y <;> simp_all [gt, lt, eq]

theorem SCIP_Real.le_eq_true_of_eq (x y : SCIP_Real) (h : eq x y = true) :
    le x y = true := by
  cases x <;> cases y <;> simp_all [le, eq]

theorem SCIP_Real.gt_pinf (x : SCIP_Real) : gt x pinf = false := by
  cases x <;> simp [gt, lt]

theorem SCIP_Real.sub_neg_neg (x y : SCIP_Real) : sub (neg y) (neg x) = sub x y := by
  cases x <;> cases y <;> simp [sub, neg]
  congr 1
  ring

theorem SCIP_Real.ne_neg_zero (x : SCIP_Real) : ne (neg x) (fin 0) = ne x (fin 0) := by
  cases x <;> simp [ne, eq, neg]

/-- The integer `abs` of a converted `double` does not see the sign of its argument,
and it is undefined for `x` exactly when it is undefined for `-x`. -/
theorem C.abs_toInt_neg (x : SCIP_Real) :
    (C.toInt (neg x) >>= C.abs) = (C.toInt x >>= C.abs) := by
  cases x with
  | fin a =>
    simp only [neg, C.toInt, Rat.neg_num, Rat.neg_den, Int.neg_tdiv]
    generalize a.num.tdiv a.den = t
    simp only [C.INT_MIN, C.INT_MAX]
    by_cases h1 : -2147483648 ≤ t ∧ t ≤ 2147483647
    · by_cases h2 : -2147483648 ≤ -t ∧ -t ≤ 2147483647
      · have h3 : t ≠ -2147483648 := by omega
        have h4 : -t ≠ -2147483648 := by omega
        rw [if_pos h1, if_pos h2]
        simp [h3, h4, C.abs, C.INT_MIN, bind, Except.bind]
      · have h3 : t = -2147483648 := by omega
        rw [if_pos h1, if_neg h2]
        simp [h3, C.abs, C.INT_MIN, bind, Except.bind]
    · by_cases h2 : -2147483648 ≤ -t ∧ -t ≤ 2147483647
      · have h3 : -t = -2147483648 := by omega
        rw [if_neg h1, if_pos h2]
        simp [h3, C.abs, C.INT_MIN, bind, Except.bind]
      · rw [if_neg h1, if_neg h2]
  | pinf => rfl
  | ninf => rfl
  | nan => rfl

/-- The integer `abs` of the truncation of a rational is the floor of its magnitude. -/
theorem C.natAbs_tdiv_eq_floor_abs (a : ℚ) :
    ((a.num.tdiv a.den).natAbs : ℤ) = ⌊|a|⌋ := by
  rw [Int.natAbs_tdiv, Int.natAbs_ofNat, Rat.abs_def, Rat.divInt_eq_div]
  have h := Rat.floor_intCast_div_natCast (a.num.natAbs : ℤ) a.den
  simp only [Int.cast_natCast] at h ⊢
  rw [h]
  exact Int.natCast_div _ _

/-- On a finite value of magnitude below `2^31` the conversion to `int` followed by
`abs` is defined and yields the magnitude truncated toward zero. -/
theorem C.abs_toInt_fin (a : ℚ) (h : |a| < 2147483648) :
    (C.toInt (fin a) >>= C.abs) = .ok ⌊|a|⌋ := by
  have hfl := C.natAbs_tdiv_eq_floor_abs a
  have hlt : ⌊|a|⌋ < 2147483648 := by
    rw [Int.floor_lt]; exact_mod_cast h
  have hr : C.INT_MIN ≤ a.num.tdiv a.den ∧ a.num.tdiv a.den ≤ C.INT_MAX := by
    simp only [C.INT_MIN, C.INT_MAX]
    omega
  have hne : a.num.tdiv a.den ≠ C.INT_MIN := by
    simp only [C.INT_MIN]
    omega
  simp only [C.toInt, if_pos hr, bind, Except.bind, C.abs, if_neg hne, hfl]

/-- The integer `abs` of a finite value whose magnitude lies in `[d, d + 1)`. -/
theorem C.abs_toInt_eval (a : ℚ) (d : Int) (h : |a| < 2147483648) (h1 : (d : ℚ) ≤ |a|)
    (h2 : |a| < d + 1) : (C.toInt (fin a) >>= C.abs) = .ok d := by
  rw [C.abs_toInt_fin a h]
  congr 1
  rw [Int.floor_eq_iff]
  exact ⟨h1, h2⟩

/-! ## The branches of `significant` -/

theorem significant_of_le (old new abstol reltol : SCIP_Real) (sense : SCIP_OBJSENSE)
    (h : le (improvement old new sense) (fin 0) = true) :
    significant old new abstol reltol sense = .ok false := by
  simp [significant, h]

theorem significant_of_gt (old new abstol reltol : SCIP_Real) (sense : SCIP_OBJSENSE)
    (h1 : le (improvement old new sense) (fin 0) = false)
    (h2 : gt (improvement old new sense) abstol = true) :
    significant old new abstol reltol sense = .ok true := by
  simp [significant, h1, h2]

theorem significant_relative_old (old new abstol reltol : SCIP_Real)
    (sense : SCIP_OBJSENSE) (d : Int)
    (h1 : le (improvement old new sense) (fin 0) = false)
    (h2 : gt (improvement old new sense) abstol = false)
    (h3 : ne old (fin 0) = true) (hd : (C.toInt old >>= C.abs) = .ok d) :
    significant old new abstol reltol sense
      = .ok (gt (SCIP_Real.div (improvement old new sense) (ofInt d)) reltol) := by
  simp only [significant, h1, h2, h3, if_true, Bool.false_eq_true, if_false]
  rw [← bind_assoc, hd]
  rfl

theorem significant_relative_new (old new abstol reltol : SCIP_Real)
    (sense : SCIP_OBJSENSE) (d : Int)
    (h1 : le (improvement old new sense) (fin 0) = false)
    (h2 : gt (improvement old new sense) abstol = false)
    (h3 : ne old (fin 0) = false) (h4 : ne new (fin 0) = true)
    (hd : (C.toInt new >>= C.abs) = .ok d) :
    significant old new abstol reltol sense
      = .ok (gt (SCIP_Real.div (improvement old new sense) (ofInt d)) reltol) := by
  simp only [significant, h1, h2, h3, h4, if_true, Bool.false_eq_true, if_false]
  rw [← bind_assoc, hd]
  rfl

/-! ## The significance classifier -/

/-- Claim C1: when minimizing, a new value that is not below the old one
(`new >= old`) is never significant, whatever the tolerances.  The old value is a
finite number; the new value may also be infinite. -/
theorem significant_minimize_not_better (old new abstol reltol : SCIP_Real)
    (hold : isFinite old = true) (h : ge new old = true) :
    significant old new abstol reltol .MINIMIZE = .ok false := by
  apply significant_of_le
  cases old with
  | fin a =>
    cases new with
    | fin b =>
      have hab : a ≤ b := by simpa [ge, le] using h
      exact SCIP_Real.round64_nonpos (sub_nonpos.mpr hab)
    | pinf => simp [improvement, sub, le]
    | ninf => simp [ge, le] at h
    | nan => simp [ge, le] at h
  | pinf => simp [isFinite] at hold
  | ninf => simp [isFinite] at hold
  | nan => simp [isFinite] at hold

/-- Instances of C1 from the unit tests `(2, 3)` and `(0, 0)`, and one with an infinite
new value. -/
theorem significant_minimize_not_better_witness :
    (isFinite (fin 2) = true ∧ ge (fin 3) (fin 2) = true ∧
      significant (fin 2) (fin 3) (fin 0) (fin 0) .MINIMIZE = .ok false) ∧
    (isFinite (fin 0) = true ∧ ge (fin 0) (fin 0) = true ∧
      significant (fin 0) (fin 0) (fin 0) (fin 0) .MINIMIZE = .ok false) ∧
    (isFinite (fin (-3)) = true ∧ ge pinf (fin (-3)) = true ∧
      significant (fin (-3)) pinf (fin 0) (fin 0) .MINIMIZE = .ok false) :=
  ⟨⟨rfl, by norm_num [ge, le],
      significant_minimize_not_better _ _ _ _ rfl (by norm_num [ge, le])⟩,
    ⟨rfl, by norm_num [ge, le],
      significant_minimize_not_better _ _ _ _ rfl (by norm_num [ge, le])⟩,
    ⟨rfl, by norm_num [ge, le],
      significant_minimize_not_better _ _ _ _ rfl (by norm_num [ge, le])⟩⟩

/-- Claim C2: when maximizing, a new value that is not above the old one
(`new <= old`) is never significant, whatever the tolerances.  The old value is a
finite number; the new value may also be infinite. -/
theorem significant_maximize_not_better (old new abstol reltol : SCIP_Real)
    (hold : isFinite old = true) (h : le new old = true) :
    significant old new abstol reltol .MAXIMIZE = .ok false := by
  apply significant_of_le
  cases old with
  | fin a =>
    cases new with
    | fin b =>
      have hab : b ≤ a := by simpa [le] using h
      exact SCIP_Real.round64_nonpos (sub_nonpos.mpr hab)
    | pinf => simp [le] at h
    | ninf => simp [improvement, sub, le]
    | nan => simp [le] at h
  | pinf => simp [isFinite] at hold
  | ninf => simp [isFinite] at hold
  | nan => simp [isFinite] at hold

/-- Instances of C2 from the unit tests `(3, 2)` and `(-2, -2)`. -/
theorem significant_maximize_not_better_witness :
    (isFinite (fin 3) = true ∧ le (fin 2) (fin 3) = true ∧
      significant (fin 3) (fin 2) (fin 0) (fin 0) .MAXIMIZE = .ok false) ∧
    (isFinite (fin (-2)) = true ∧ le (fin (-2)) (fin (-2)) = true ∧
      significant (fin (-2)) (fin (-2)) (fin 0) (fin 0) .MAXIMIZE = .ok false) :=
  ⟨⟨rfl, by norm_num [le],
      significant_maximize_not_better _ _ _ _ rfl (by norm_num [le])⟩,
    ⟨rfl, by norm_num [le],
      significant_maximize_not_better _ _ _ _ rfl (by norm_num [le])⟩⟩

/-- Claim C3, as stated, fails.  At `significant(1, -2^53, 2^53, INFINITY, MINIMIZE)` the
difference `old - new = 2^53 + 1` is positive and exceeds `abstol = 2^53`, but the
subtraction rounds it to `2^53`, which does not exceed `abstol`, and the function
returns FALSE.  The same happens at `significant(0.1, -0.4, 0.5, INFINITY, MINIMIZE)`
taken at the binary64 values of the three literals: the difference exceeds `0.5` by
`2^-55` and is rounded to `0.5`. -/
theorem significant_absolute_bar_counterexample :
    ((0 : ℚ) < 1 - (-9007199254740992) ∧
      (9007199254740992 : ℚ) < 1 - (-9007199254740992) ∧
      significant (fin 1) (fin (-9007199254740992)) (fin 9007199254740992) INFINITY
        .MINIMIZE = .ok false) ∧
    (round64 (3602879701896397 / 36028797018963968)
        = fin (3602879701896397 / 36028797018963968) ∧
      round64 (3602879701896397 / 9007199254740992)
        = fin (3602879701896397 / 9007199254740992) ∧
      (0 : ℚ) < 3602879701896397 / 36028797018963968
        - (-(3602879701896397 / 9007199254740992)) ∧
      (1 / 2 : ℚ) < 3602879701896397 / 36028797018963968
        - (-(3602879701896397 / 9007199254740992)) ∧
      significant (fin (3602879701896397 / 36028797018963968))
        (fin (-(3602879701896397 / 9007199254740992))) (fin (1 / 2)) INFINITY
        .MINIMIZE = .ok false) := by
  refine ⟨⟨by norm_num, by norm_num, ?_⟩, ⟨?_, ?_, by norm_num, by norm_num, ?_⟩⟩
  · have himp : improvement (fin 1) (fin (-9007199254740992)) .MINIMIZE
        = fin 9007199254740992 := by
      have hb : binade ((1 : ℚ) - (-9007199254740992)) = 53 :=
        binade_eq (by norm_num) (by norm_num) (by norm_num) (by norm_num)
      have h := SCIP_Real.round64_eval (x := (1 : ℚ) - (-9007199254740992))
        (n := 4503599627370496) (by norm_num) hb
        (Or.inr ⟨by norm_num [abs_of_pos], by norm_num⟩) (by norm_num)
      simp only [improvement, sub]
      rw [h]
      norm_num
    rw [significant_relative_old _ _ _ _ _ 1 (by rw [himp]; norm_num [le])
      (by rw [himp]; norm_num [gt, lt]) (by norm_num [ne, eq])
      (C.abs_toInt_eval 1 1 (by norm_num) (by norm_num) (by norm_num)), INFINITY,
      SCIP_Real.gt_pinf]
  · exact SCIP_Real.round64_anchor 3602879701896397 55 (by norm_num) (by norm_num)
      (by norm_num) (by norm_num) (by norm_num)
  · exact SCIP_Real.round64_anchor 3602879701896397 53 (by norm_num) (by norm_num)
      (by norm_num) (by norm_num) (by norm_num)
  · have himp : improvement (fin (3602879701896397 / 36028797018963968))
        (fin (-(3602879701896397 / 9007199254740992))) .MINIMIZE = fin (1 / 2) := by
      have hb : binade ((3602879701896397 / 36028797018963968 : ℚ)
          - (-(3602879701896397 / 9007199254740992))) = -1 :=
        binade_eq (by norm_num) (by norm_num) (by norm_num) (by norm_num)
      have h := SCIP_Real.round64_eval
        (x := (3602879701896397 / 36028797018963968 : ℚ)
          - (-(3602879701896397 / 9007199254740992)))
        (n := 4503599627370496) (by norm_num) hb
        (Or.inl (by norm_num [abs_of_pos])) (by norm_num)
      simp only [improvement, sub]
      rw [h]
      norm_num
    rw [significant_relative_old _ _ _ _ _ 0 (by rw [himp]; norm_num [le])
      (by rw [himp]; norm_num [gt, lt]) (by norm_num [ne, eq])
      (C.abs_toInt_eval _ 0 (by norm_num [abs_of_pos]) (by norm_num [abs_of_pos])
        (by norm_num [abs_of_pos])), INFINITY, SCIP_Real.gt_pinf]

/-- Claim C3, amended: the absolute bar on the improvement as it is computed.  For
either sense and any tolerances (infinite ones included), if the rounded difference
that `significant` computes is positive and exceeds `abstol`, the function returns
TRUE; `reltol` plays no part. -/
theorem significant_absolute_bar (old new abstol reltol : SCIP_Real)
    (sense : SCIP_OBJSENSE)
    (hpos : gt (improvement old new sense) (fin 0) = true)
    (habs : gt (improvement old new sense) abstol = true) :
    significant old new abstol reltol sense = .ok true := by
  have hle : le (improvement old new sense) (fin 0) = false :=
    SCIP_Real.le_eq_false_of_gt _ _ hpos
  simp [significant, hle, habs]

/-- The two calls named in C3: the bar is cleared at `(10, 1)` with `abstol = 1`, and
is not at `(1.003, 1.001)` with `abstol = 0.01`, the relative tolerance being infinite. -/
theorem significant_absolute_bar_witness :
    (gt (improvement (fin 10.0) (fin 1.0) .MINIMIZE) (fin 0) = true ∧
      gt (improvement (fin 10.0) (fin 1.0) .MINIMIZE) (fin 1.0) = true ∧
      significant (fin 10.0) (fin 1.0) (fin 1.0) INFINITY .MINIMIZE = .ok true) ∧
    significant (fin 1.003) (fin 1.001) (fin 0.01) INFINITY .MINIMIZE = .ok false := by
  have himp : improvement (fin 10.0) (fin 1.0) .MINIMIZE = fin 9 := by
    have h := SCIP_Real.round64_anchor (x := (10.0 : ℚ) - 1.0) 9 0 (by norm_num)
      (by norm_num) (by norm_num) (by norm_num) (by norm_num)
    simp only [improvement, sub]
    rw [h]
    norm_num
  have h1 : gt (improvement (fin 10.0) (fin 1.0) .MINIMIZE) (fin 0) = true := by
    rw [himp]; norm_num [gt, lt]
  have h2 : gt (improvement (fin 10.0) (fin 1.0) .MINIMIZE) (fin 1.0) = true := by
    rw [himp]; norm_num [gt, lt]
  refine ⟨⟨h1, h2, significant_absolute_bar _ _ _ _ _ h1 h2⟩, ?_⟩
  have A10 : round64 (1 / 1024) = fin (1 / 1024) :=
    SCIP_Real.round64_anchor 1 10 (by norm_num) (by norm_num) (by norm_num) (by norm_num)
      (by norm_num)
  have A8 : round64 (1 / 256) = fin (1 / 256) :=
    SCIP_Real.round64_anchor 1 8 (by norm_num) (by norm_num) (by norm_num) (by norm_num)
      (by norm_num)
  obtain ⟨r, hr, hr1, hr2⟩ := SCIP_Real.sub_between (a := 1.003) (b := 1.001) A10 A8
    (by norm_num) (by norm_num)
  have hi : improvement (fin 1.003) (fin 1.001) .MINIMIZE = fin r := hr
  rw [significant_relative_old _ _ _ _ _ 1
    (by rw [hi]; simp only [le, decide_eq_false_iff_not, not_le]; linarith)
    (by rw [hi]; simp only [gt, lt, decide_eq_false_iff_not, not_lt]; norm_num; linarith)
    (by norm_num [ne, eq])
    (C.abs_toInt_eval _ 1 (by norm_num [abs_of_pos]) (by norm_num [abs_of_pos])
      (by norm_num [abs_of_pos])), INFINITY, SCIP_Real.gt_pinf]

theorem SCIP_Real.div_ofInt_zero_of_pos {r : ℚ} (h : 0 < r) :
    SCIP_Real.div (fin r) (ofInt 0) = pinf := by
  simp [SCIP_Real.div, ofInt, signedInf, h]

/-- Claim C4: the relative bar with a non-zero old value does not use the real
absolute value of `old`.  At `significant(1.9, 1.0, INFINITY, 0.5, MINIMIZE)` the
improvement `0.9` is positive and below `abstol`, the ratio to `|old|` is
`0.9 / 1.9 < 0.5`, and yet the function returns TRUE, because `abs` truncates `1.9`
to the integer `1`.  With the default tolerances, at
`significant(0.5, 0.499, INFINITY, 0.01, MINIMIZE)`, the truncated denominator is `0`,
the quotient is `+inf` and the function returns TRUE although `0.001 / 0.5 < 0.01`. -/
theorem significant_relative_old_uses_int_abs :
    (isFinite (fin 1.9) = true ∧ ne (fin 1.9) (fin 0) = true ∧
      gt (improvement (fin 1.9) (fin 1.0) .MINIMIZE) (fin 0) = true ∧
      le (improvement (fin 1.9) (fin 1.0) .MINIMIZE) INFINITY = true ∧
      specRelativeRule (improvement (fin 1.9) (fin 1.0) .MINIMIZE) (fin 1.9) (fin 0.5)
        = false ∧
      significant (fin 1.9) (fin 1.0) INFINITY (fin 0.5) .MINIMIZE = .ok true) ∧
    (isFinite (fin 0.5) = true ∧ ne (fin 0.5) (fin 0) = true ∧
      gt (improvement (fin 0.5) (fin 0.499) .MINIMIZE) (fin 0) = true ∧
      le (improvement (fin 0.5) (fin 0.499) .MINIMIZE) INFINITY = true ∧
      specRelativeRule (improvement (fin 0.5) (fin 0.499) .MINIMIZE) (fin 0.5) (fin 0.01)
        = false ∧
      significant (fin 0.5) (fin 0.499) INFINITY (fin 0.01) .MINIMIZE = .ok true) := by
  have B4 : round64 (1 / 4) = fin (1 / 4) :=
    SCIP_Real.round64_anchor 1 2 (by norm_num) (by norm_num) (by norm_num) (by norm_num)
      (by norm_num)
  have B2 : round64 (1 / 2) = fin (1 / 2) :=
    SCIP_Real.round64_anchor 1 1 (by norm_num) (by norm_num) (by norm_num) (by norm_num)
      (by norm_num)
  have B34 : round64 (3 / 4) = fin (3 / 4) :=
    SCIP_Real.round64_anchor 3 2 (by norm_num) (by norm_num) (by norm_num) (by norm_num)
      (by norm_num)
  have B1516 : round64 (15 / 16) = fin (15 / 16) :=
    SCIP_Real.round64_anchor 15 4 (by norm_num) (by norm_num) (by norm_num) (by norm_num)
      (by norm_num)
  have A10 : round64 (1 / 1024) = fin (1 / 1024) :=
    SCIP_Real.round64_anchor 1 10 (by norm_num) (by norm_num) (by norm_num) (by norm_num)
      (by norm_num)
  have A9 : round64 (1 / 512) = fin (1 / 512) :=
    SCIP_Real.round64_anchor 1 9 (by norm_num) (by norm_num) (by norm_num) (by norm_num)
      (by norm_num)
  have A8 : round64 (1 / 256) = fin (1 / 256) :=
    SCIP_Real.round64_anchor 1 8 (by norm_num) (by norm_num) (by norm_num) (by norm_num)
      (by norm_num)
  constructor
  · obtain ⟨r, hr, hr1, hr2⟩ := SCIP_Real.sub_between (a := 1.9) (b := 1.0) B34 B1516
      (by norm_num) (by norm_num)
    have hi : improvement (fin 1.9) (fin 1.0) .MINIMIZE = fin r := hr
    have hle : le (improvement (fin 1.9) (fin 1.0) .MINIMIZE) (fin 0) = false := by
      rw [hi]; simp only [le, decide_eq_false_iff_not, not_le]; linarith
    have hgt : gt (improvement (fin 1.9) (fin 1.0) .MINIMIZE) INFINITY = false := by
      rw [INFINITY, SCIP_Real.gt_pinf]
    refine ⟨rfl, by norm_num [ne, eq], ?_, ?_, ?_, ?_⟩
    · rw [hi]; simp only [gt, lt, decide_eq_true_eq]; linarith
    · rw [hi]; simp [le, INFINITY]
    · have hf : fabs (fin 1.9) = fin 1.9 := by norm_num [fabs]
      obtain ⟨q, hq, _, hq2⟩ := SCIP_Real.div_between (a := r) (b := 1.9) (by norm_num)
        B4 B2 (by rw [le_div_iff₀ (by norm_num)]; linarith)
        (by rw [div_le_iff₀ (by norm_num)]; linarith)
      rw [specRelativeRule, hi, hf, hq]
      simp only [gt, lt, decide_eq_false_iff_not, not_lt]
      norm_num
      exact hq2
    · rw [significant_relative_old _ _ _ _ _ 1 hle hgt (by norm_num [ne, eq])
        (C.abs_toInt_eval _ 1 (by norm_num [abs_of_pos]) (by norm_num [abs_of_pos])
          (by norm_num [abs_of_pos])), hi]
      obtain ⟨q, hq, hq1, _⟩ := SCIP_Real.div_between (a := r) (b := ((1 : Int) : ℚ))
        (by norm_num) B34 B1516 (by norm_num; exact hr1) (by norm_num; exact hr2)
      rw [ofInt, hq]
      simp only [gt, lt, Except.ok.injEq, decide_eq_true_eq]
      norm_num
      linarith
  · obtain ⟨r, hr, hr1, hr2⟩ := SCIP_Real.sub_between (a := 0.5) (b := 0.499) A10 A9
      (by norm_num) (by norm_num)
    have hi : improvement (fin 0.5) (fin 0.499) .MINIMIZE = fin r := hr
    have hrpos : 0 < r := by linarith
    have hle : le (improvement (fin 0.5) (fin 0.499) .MINIMIZE) (fin 0) = false := by
      rw [hi]; simp only [le, decide_eq_false_iff_not, not_le]; exact hrpos
    have hgt : gt (improvement (fin 0.5) (fin 0.499) .MINIMIZE) INFINITY = false := by
      rw [INFINITY, SCIP_Real.gt_pinf]
    refine ⟨rfl, by norm_num [ne, eq], ?_, ?_, ?_, ?_⟩
    · rw [hi]; simp only [gt, lt, decide_eq_true_eq]; exact hrpos
    · rw [hi]; simp [le, INFINITY]
    · have hf : fabs (fin 0.5) = fin 0.5 := by norm_num [fabs]
      obtain ⟨q, hq, _, hq2⟩ := SCIP_Real.div_between (a := r) (b := 0.5) (by norm_num)
        A9 A8 (by rw [le_div_iff₀ (by norm_num)]; linarith)
        (by rw [div_le_iff₀ (by norm_num)]; linarith)
      rw [specRelativeRule, hi, hf, hq]
      simp only [gt, lt, decide_eq_false_iff_not, not_lt]
      norm_num
      linarith
    · rw [significant_relative_old _ _ _ _ _ 0 hle hgt (by norm_num [ne, eq])
        (C.abs_toInt_eval _ 0 (by norm_num [abs_of_pos]) (by norm_num [abs_of_pos])
          (by norm_num [abs_of_pos])), hi, SCIP_Real.div_ofInt_zero_of_pos hrpos]
      simp [gt, lt]

/-- Claim C5: the zero-old fallback does not use the real absolute value of `new`.
At `significant(0.0, -0.5, INFINITY, 2.0, MINIMIZE)` the improvement `0.5` is positive
and below `abstol`, the ratio to `|new|` is `1`, which does not exceed `reltol = 2`,
and yet the function returns TRUE: `abs` truncates `-0.5` to `0` and the quotient is
`+inf`.  At `significant(0.0, -1.5, INFINITY, 1.0, MINIMIZE)` the denominator is `1`
and the function returns TRUE although `1.5 / 1.5` does not exceed `1`. -/
theorem significant_relative_new_uses_int_abs :
    (gt (improvement (fin 0.0) (fin (-0.5)) .MINIMIZE) (fin 0) = true ∧
      le (improvement (fin 0.0) (fin (-0.5)) .MINIMIZE) INFINITY = true ∧
      specRelativeRule (improvement (fin 0.0) (fin (-0.5)) .MINIMIZE) (fin (-0.5))
        (fin 2.0) = false ∧
      gt (fin 1) (fin 2.0) = false ∧
      significant (fin 0.0) (fin (-0.5)) INFINITY (fin 2.0) .MINIMIZE = .ok true) ∧
    (gt (improvement (fin 0.0) (fin (-1.5)) .MINIMIZE) (fin 0) = true ∧
      le (improvement (fin 0.0) (fin (-1.5)) .MINIMIZE) INFINITY = true ∧
      specRelativeRule (improvement (fin 0.0) (fin (-1.5)) .MINIMIZE) (fin (-1.5))
        (fin 1.0) = false ∧
      gt (fin 1) (fin 1.0) = false ∧
      significant (fin 0.0) (fin (-1.5)) INFINITY (fin 1.0) .MINIMIZE = .ok true) := by
  have R1 : round64 1 = fin 1 :=
    SCIP_Real.round64_anchor 1 0 (by norm_num) (by norm_num) (by norm_num) (by norm_num)
      (by norm_num)
  constructor
  · have hi : improvement (fin 0.0) (fin (-0.5)) .MINIMIZE = fin (1 / 2) := by
      have h := SCIP_Real.round64_anchor (x := (0.0 : ℚ) - (-0.5)) 1 1 (by norm_num)
        (by norm_num) (by norm_num) (by norm_num) (by norm_num)
      simp only [improvement, sub]
      rw [h]
      norm_num
    have hle : le (improvement (fin 0.0) (fin (-0.5)) .MINIMIZE) (fin 0) = false := by
      rw [hi]; norm_num [le]
    have hgt : gt (improvement (fin 0.0) (fin (-0.5)) .MINIMIZE) INFINITY = false := by
      rw [INFINITY, SCIP_Real.gt_pinf]
    refine ⟨by rw [hi]; norm_num [gt, lt], by rw [hi]; simp [le, INFINITY], ?_,
      by norm_num [gt, lt], ?_⟩
    · have hf : fabs (fin (-0.5)) = fin (1 / 2) := by norm_num [fabs]
      have hd : SCIP_Real.div (fin (1 / 2)) (fin (1 / 2)) = fin 1 := by
        have e : (1 / 2 : ℚ) / (1 / 2) = 1 := by norm_num
        simp only [SCIP_Real.div]
        rw [if_neg (by norm_num), e, R1]
      rw [specRelativeRule, hi, hf, hd]
      norm_num [gt, lt]
    · rw [significant_relative_new _ _ _ _ _ 0 hle hgt (by norm_num [ne, eq])
        (by norm_num [ne, eq])
        (C.abs_toInt_eval _ 0 (by norm_num [abs_of_neg]) (by norm_num [abs_of_neg])
          (by norm_num [abs_of_neg])), hi,
        SCIP_Real.div_ofInt_zero_of_pos (by norm_num)]
      simp [gt, lt]
  · have hi : improvement (fin 0.0) (fin (-1.5)) .MINIMIZE = fin (3 / 2) := by
      have h := SCIP_Real.round64_anchor (x := (0.0 : ℚ) - (-1.5)) 3 1 (by norm_num)
        (by norm_num) (by norm_num) (by norm_num) (by norm_num)
      simp only [improvement, sub]
      rw [h]
      norm_num
    have hle : le (improvement (fin 0.0) (fin (-1.5)) .MINIMIZE) (fin 0) = false := by
      rw [hi]; norm_num [le]
    have hgt : gt (improvement (fin 0.0) (fin (-1.5)) .MINIMIZE) INFINITY = false := by
      rw [INFINITY, SCIP_Real.gt_pinf]
    refine ⟨by rw [hi]; norm_num [gt, lt], by rw [hi]; simp [le, INFINITY], ?_,
      by norm_num [gt, lt], ?_⟩
    · have hf : fabs (fin (-1.5)) = fin (3 / 2) := by norm_num [fabs]
      have hd : SCIP_Real.div (fin (3 / 2)) (fin (3 / 2)) = fin 1 := by
        have e : (3 / 2 : ℚ) / (3 / 2) = 1 := by norm_num
        simp only [SCIP_Real.div]
        rw [if_neg (by norm_num), e, R1]
      rw [specRelativeRule, hi, hf, hd]
      norm_num [gt, lt]
    · have hd : SCIP_Real.div (fin (3 / 2)) (ofInt 1) = fin (3 / 2) := by
        have e : (3 / 2 : ℚ) / ((1 : Int) : ℚ) = 3 / 2 := by norm_num
        simp only [SCIP_Real.div, ofInt]
        rw [if_neg (by norm_num), e]
        exact SCIP_Real.round64_anchor 3 1 (by norm_num) (by norm_num) (by norm_num)
          (by norm_num) (by norm_num)
      rw [significant_relative_new _ _ _ _ _ 1 hle hgt (by norm_num [ne, eq])
        (by norm_num [ne, eq])
        (C.abs_toInt_eval _ 1 (by norm_num [abs_of_neg]) (by norm_num [abs_of_neg])
          (by norm_num [abs_of_neg])), hi, hd]
      norm_num [gt, lt]

/-- Claim C6: sense symmetry.  Minimizing from `old` to `new` is classified exactly as
maximizing from `-old` to `-new`, for all tolerances; this holds for every pair of
values, the finite ones in particular, and includes the calls that are undefined. -/
theorem significant_sense_symmetry (old new abstol reltol : SCIP_Real) :
    significant old new abstol reltol .MINIMIZE
      = significant (neg old) (neg new) abstol reltol .MAXIMIZE := by
  have key : ∀ (x : SCIP_Real) (f : Int → Bool),
      (C.toInt (neg x) >>= fun i => C.abs i >>= fun d => pure (f d))
        = (C.toInt x >>= fun i => C.abs i >>= fun d => (pure (f d) : Except Fault Bool)) := by
    intro x f
    rw [← bind_assoc, ← bind_assoc, C.abs_toInt_neg]
  simp only [significant, improvement, SCIP_Real.sub_neg_neg, SCIP_Real.ne_neg_zero, key]

/-! ## The stall classifier -/

theorem SCIP_Real.gt_self (x : SCIP_Real) : gt x x = false := by
  cases x <;> simp [gt, lt]

theorem shouldStop_of_le (mintime maxtime fractime lastsol current : SCIP_Real)
    (h : le (sub current lastsol) mintime = true) :
    shouldStop mintime maxtime fractime lastsol current = false := by
  simp [shouldStop, h]

theorem shouldStop_of_gt_max (mintime maxtime fractime lastsol current : SCIP_Real)
    (h1 : le (sub current lastsol) mintime = false)
    (h2 : gt (sub current lastsol) maxtime = true) :
    shouldStop mintime maxtime fractime lastsol current = true := by
  simp [shouldStop, h1, h2]

theorem shouldStop_of_gt_frac (mintime maxtime fractime lastsol current : SCIP_Real)
    (h1 : le (sub current lastsol) mintime = false)
    (h3 : gt (sub current lastsol) (mul fractime current) = true) :
    shouldStop mintime maxtime fractime lastsol current = true := by
  cases h2 : gt (sub current lastsol) maxtime <;> simp [shouldStop, h1, h2, h3]

theorem shouldStop_of_not (mintime maxtime fractime lastsol current : SCIP_Real)
    (h2 : gt (sub current lastsol) maxtime = false)
    (h3 : gt (sub current lastsol) (mul fractime current) = false) :
    shouldStop mintime maxtime fractime lastsol current = false := by
  cases h1 : le (sub current lastsol) mintime <;> simp [shouldStop, h1, h2, h3]

/-- Claim C7: the minimum time takes precedence.  Whenever the elapsed time
`currentTime - lastImprovementTime` is at most `mintime`, `shouldStop` returns FALSE,
whatever `maxtime` and `fractime` are. -/
theorem shouldStop_mintime_precedence
    (mintime maxtime fractime lastsol current : SCIP_Real)
    (h : le (sub current lastsol) mintime = true) :
    shouldStop mintime maxtime fractime lastsol current = false := by
  simp [shouldStop, h]

/-- The two calls named in C7, where the fractional ceiling is exceeded, and one where
the hard ceiling is exceeded. -/
theorem shouldStop_mintime_precedence_witness :
    (le (sub (fin 1.0) (fin 0.0)) (fin 2.0) = true ∧
      gt (sub (fin 1.0) (fin 0.0)) (mul (fin 0.25) (fin 1.0)) = true ∧
      shouldStop (fin 2.0) INFINITY (fin 0.25) (fin 0.0) (fin 1.0) = false) ∧
    (le (sub (fin 2.0) (fin 0.0)) (fin 2.0) = true ∧
      gt (sub (fin 2.0) (fin 0.0)) (mul (fin 0.25) (fin 2.0)) = true ∧
      shouldStop (fin 2.0) INFINITY (fin 0.25) (fin 0.0) (fin 2.0) = false) ∧
    (le (sub (fin 5.0) (fin 0.0)) (fin 7.0) = true ∧
      gt (sub (fin 5.0) (fin 0.0)) (fin 1.0) = true ∧
      shouldStop (fin 7.0) (fin 1.0) (fin 0.25) (fin 0.0) (fin 5.0) = false) := by
  have s1 : sub (fin 1.0) (fin 0.0) = fin 1 :=
    SCIP_Real.sub_eval 0 1 (by norm_num) (by norm_num) (by norm_num) (by norm_num)
  have s2 : sub (fin 2.0) (fin 0.0) = fin 2 :=
    SCIP_Real.sub_eval 0 2 (by norm_num) (by norm_num) (by norm_num) (by norm_num)
  have s5 : sub (fin 5.0) (fin 0.0) = fin 5 :=
    SCIP_Real.sub_eval 0 5 (by norm_num) (by norm_num) (by norm_num) (by norm_num)
  have m1 : mul (fin 0.25) (fin 1.0) = fin (1 / 4) :=
    SCIP_Real.mul_eval 2 1 (by norm_num) (by norm_num) (by norm_num) (by norm_num)
  have m2 : mul (fin 0.25) (fin 2.0) = fin (1 / 2) :=
    SCIP_Real.mul_eval 1 1 (by norm_num) (by norm_num) (by norm_num) (by norm_num)
  have h1 : le (sub (fin 1.0) (fin 0.0)) (fin 2.0) = true := by
    rw [s1]; norm_num [le]
  have h2 : le (sub (fin 2.0) (fin 0.0)) (fin 2.0) = true := by
    rw [s2]; norm_num [le]
  have h5 : le (sub (fin 5.0) (fin 0.0)) (fin 7.0) = true := by
    rw [s5]; norm_num [le]
  exact ⟨⟨h1, by rw [s1, m1]; norm_num [gt, lt],
      shouldStop_mintime_precedence _ _ _ _ _ h1⟩,
    ⟨h2, by rw [s2, m2]; norm_num [gt, lt], shouldStop_mintime_precedence _ _ _ _ _ h2⟩,
    ⟨h5, by rw [s5]; norm_num [gt, lt], shouldStop_mintime_precedence _ _ _ _ _ h5⟩⟩

/-- Claim C8, as stated, fails.  At `shouldStop(0, INFINITY, 0.2, 1.2, 1.5)`, taken at
the binary64 values of the literals `0.2` and `1.2`, the elapsed time `1.5 - 1.2`
exceeds `mintime = 0` and exceeds the product `0.2 * 1.5`, but the multiplication
rounds the product up to the very value of the elapsed time, and the function returns
FALSE. -/
theorem shouldStop_ceilings_or_counterexample :
    round64 (3602879701896397 / 18014398509481984)
      = fin (3602879701896397 / 18014398509481984) ∧
    round64 (5404319552844595 / 4503599627370496)
      = fin (5404319552844595 / 4503599627370496) ∧
    round64 (3 / 2) = fin (3 / 2) ∧
    (0 : ℚ) < 3 / 2 - 5404319552844595 / 4503599627370496 ∧
    (3602879701896397 / 18014398509481984 : ℚ) * (3 / 2)
      < 3 / 2 - 5404319552844595 / 4503599627370496 ∧
    shouldStop (fin 0) INFINITY (fin (3602879701896397 / 18014398509481984))
      (fin (5404319552844595 / 4503599627370496)) (fin (3 / 2)) = false := by
  refine ⟨?_, ?_, ?_, by norm_num, by norm_num, ?_⟩
  · exact SCIP_Real.round64_exact 54 3602879701896397 (by norm_num) (by norm_num)
      (by norm_num)
  · exact SCIP_Real.round64_exact 52 5404319552844595 (by norm_num) (by norm_num)
      (by norm_num)
  · exact SCIP_Real.round64_exact 1 3 (by norm_num) (by norm_num) (by norm_num)
  · have hs : sub (fin (3 / 2)) (fin (5404319552844595 / 4503599627370496))
        = fin (1351079888211149 / 4503599627370496) :=
      SCIP_Real.sub_eval 52 1351079888211149 (by norm_num) (by norm_num) (by norm_num)
        (by norm_num)
    have hm : mul (fin (3602879701896397 / 18014398509481984)) (fin (3 / 2))
        = fin (1351079888211149 / 4503599627370496) := by
      have hb : binade ((3602879701896397 / 18014398509481984 : ℚ) * (3 / 2)) = -2 :=
        binade_eq (by norm_num) (by norm_num) (by norm_num) (by norm_num)
      have h := SCIP_Real.round64_eval
        (x := (3602879701896397 / 18014398509481984 : ℚ) * (3 / 2))
        (n := 5404319552844596) (by norm_num) hb
        (Or.inr ⟨by norm_num [abs_of_neg], by norm_num⟩) (by norm_num)
      simp only [mul]
      rw [h]
      norm_num
    exact shouldStop_of_not _ _ _ _ _ (by rw [INFINITY, SCIP_Real.gt_pinf])
      (by rw [hs, hm, SCIP_Real.gt_self])

/-- Claim C8, amended: past the grace period the two ceilings are OR-combined, on the
values as they are computed.  When the rounded difference
`currentTime - lastImprovementTime` exceeds `mintime`, `shouldStop` returns TRUE exactly
when that difference exceeds `maxtime` or exceeds the rounded product
`fractime * currentTime`. -/
theorem shouldStop_ceilings_or
    (mintime maxtime fractime lastsol current : SCIP_Real)
    (h : gt (sub current lastsol) mintime = true) :
    shouldStop mintime maxtime fractime lastsol current = true ↔
      (gt (sub current lastsol) maxtime = true ∨
        gt (sub current lastsol) (mul fractime current) = true) := by
  have hle : le (sub current lastsol) mintime = false :=
    SCIP_Real.le_eq_false_of_gt _ _ h
  by_cases h1 : gt (sub current lastsol) maxtime = true
  · simp [shouldStop, hle, h1]
  · by_cases h2 : gt (sub current lastsol) (mul fractime current) = true
    · simp [shouldStop, hle, h1, h2]
    · simp [shouldStop, hle, h1, h2]

/-- The six calls named in C8, each obtained from the equivalence. -/
theorem shouldStop_ceilings_or_witness :
    shouldStop (fin 0) INFINITY (fin 0.25) (fin 0) (fin 1.0) = true ∧
    shouldStop (fin 2.0) INFINITY (fin 0.25) (fin 0) (fin 3.0) = true ∧
    shouldStop (fin 0) INFINITY (fin 0.25) (fin 10.0) (fin 14.0) = true ∧
    shouldStop (fin 0) (fin 1.0) (fin 1.0) (fin 0) (fin 1.5) = true ∧
    shouldStop (fin 0) INFINITY (fin 0.25) (fin 10.0) (fin 11.0) = false ∧
    shouldStop (fin 0) (fin 1.0) (fin 1.0) (fin 0) (fin 0.5) = false := by
  have s1 : sub (fin 1.0) (fin 0) = fin 1 :=
    SCIP_Real.sub_eval 0 1 (by norm_num) (by norm_num) (by norm_num) (by norm_num)
  have m1 : mul (fin 0.25) (fin 1.0) = fin (1 / 4) :=
    SCIP_Real.mul_eval 2 1 (by norm_num) (by norm_num) (by norm_num) (by norm_num)
  have s3 : sub (fin 3.0) (fin 0) = fin 3 :=
    SCIP_Real.sub_eval 0 3 (by norm_num) (by norm_num) (by norm_num) (by norm_num)
  have m3 : mul (fin 0.25) (fin 3.0) = fin (3 / 4) :=
    SCIP_Real.mul_eval 2 3 (by norm_num) (by norm_num) (by norm_num) (by norm_num)
  have s14 : sub (fin 14.0) (fin 10.0) = fin 4 :=
    SCIP_Real.sub_eval 0 4 (by norm_num) (by norm_num) (by norm_num) (by norm_num)
  have m14 : mul (fin 0.25) (fin 14.0) = fin (7 / 2) :=
    SCIP_Real.mul_eval 1 7 (by norm_num) (by norm_num) (by norm_num) (by norm_num)
  have s15 : sub (fin 1.5) (fin 0) = fin (3 / 2) :=
    SCIP_Real.sub_eval 1 3 (by norm_num) (by norm_num) (by norm_num) (by norm_num)
  have s11 : sub (fin 11.0) (fin 10.0) = fin 1 :=
    SCIP_Real.sub_eval 0 1 (by norm_num) (by norm_num) (by norm_num) (by norm_num)
  have m11 : mul (fin 0.25) (fin 11.0) = fin (11 / 4) :=
    SCIP_Real.mul_eval 2 11 (by norm_num) (by norm_num) (by norm_num) (by norm_num)
  have s05 : sub (fin 0.5) (fin 0) = fin (1 / 2) :=
    SCIP_Real.sub_eval 1 1 (by norm_num) (by norm_num) (by norm_num) (by norm_num)
  have m05 : mul (fin 1.0) (fin 0.5) = fin (1 / 2) :=
    SCIP_Real.mul_eval 1 1 (by norm_num) (by norm_num) (by norm_num) (by norm_num)
  refine ⟨?_, ?_, ?_, ?_, ?_, ?_⟩
  · exact (shouldStop_ceilings_or _ _ _ _ _ (by rw [s1]; norm_num [gt, lt])).mpr
      (Or.inr (by rw [s1, m1]; norm_num [gt, lt]))
  · exact (shouldStop_ceilings_or _ _ _ _ _ (by rw [s3]; norm_num [gt, lt])).mpr
      (Or.inr (by rw [s3, m3]; norm_num [gt, lt]))
  · exact (shouldStop_ceilings_or _ _ _ _ _ (by rw [s14]; norm_num [gt, lt])).mpr
      (Or.inr (by rw [s14, m14]; norm_num [gt, lt]))
  · exact (shouldStop_ceilings_or _ _ _ _ _ (by rw [s15]; norm_num [gt, lt])).mpr
      (Or.inl (by rw [s15]; norm_num [gt, lt]))
  · have hiff := shouldStop_ceilings_or (fin 0) INFINITY (fin 0.25) (fin 10.0) (fin 11.0)
      (by rw [s11]; norm_num [gt, lt])
    have hno : ¬ (gt (sub (fin 11.0) (fin 10.0)) INFINITY = true ∨
        gt (sub (fin 11.0) (fin 10.0)) (mul (fin 0.25) (fin 11.0)) = true) := by
      rw [s11, m11]; norm_num [gt, lt, INFINITY]
    exact Bool.eq_false_iff.mpr (fun hs => hno (hiff.mp hs))
  · have hiff := shouldStop_ceilings_or (fin 0) (fin 1.0) (fin 1.0) (fin 0) (fin 0.5)
      (by rw [s05]; norm_num [gt, lt])
    have hno : ¬ (gt (sub (fin 0.5) (fin 0)) (fin 1.0) = true ∨
        gt (sub (fin 0.5) (fin 0)) (mul (fin 1.0) (fin 0.5)) = true) := by
      rw [s05, m05]; norm_num [gt, lt]
    exact Bool.eq_false_iff.mpr (fun hs => hno (hiff.mp hs))

/-- Claim C9, as stated, fails: at `shouldStop(0, 1.0, 0.25, 0, 1.0)` the elapsed time
equals `maxtime` exactly, and the function returns TRUE because the elapsed time
exceeds `fractime * currentTime`. -/
theorem shouldStop_equal_bound_counterexample :
    eq (sub (fin 1.0) (fin 0)) (fin 1.0) = true ∧
    shouldStop (fin 0) (fin 1.0) (fin 0.25) (fin 0) (fin 1.0) = true := by
  have s1 : sub (fin 1.0) (fin 0) = fin 1 :=
    SCIP_Real.sub_eval 0 1 (by norm_num) (by norm_num) (by norm_num) (by norm_num)
  have m1 : mul (fin 0.25) (fin 1.0) = fin (1 / 4) :=
    SCIP_Real.mul_eval 2 1 (by norm_num) (by norm_num) (by norm_num) (by norm_num)
  constructor
  · rw [s1]; norm_num [eq]
  · exact shouldStop_of_gt_frac _ _ _ _ _ (by rw [s1]; norm_num [le])
      (by rw [s1, m1]; norm_num [gt, lt])

/-- Claim C9, amended: a bound that the elapsed time equals exactly does not fire, the
elapsed time and the product being the rounded values that the function computes.
If the computed elapsed time equals `mintime`, `shouldStop` returns FALSE.  If it
equals `maxtime`, `shouldStop` returns TRUE only through the fractional ceiling, that
is exactly when the elapsed time is past `mintime` (the test `elapsed <= mintime`
fails) and exceeds the computed `fractime * currentTime`.  If it equals the computed
`fractime * currentTime`, `shouldStop` returns TRUE only through the hard ceiling, that
is exactly when the elapsed time is past `mintime` and exceeds `maxtime`. -/
theorem shouldStop_boundary_exclusive
    (mintime maxtime fractime lastsol current : SCIP_Real) :
    (eq (sub current lastsol) mintime = true →
      shouldStop mintime maxtime fractime lastsol current = false) ∧
    (eq (sub current lastsol) maxtime = true →
      (shouldStop mintime maxtime fractime lastsol current = true ↔
        (le (sub current lastsol) mintime = false ∧
          gt (sub current lastsol) (mul fractime current) = true))) ∧
    (eq (sub current lastsol) (mul fractime current) = true →
      (shouldStop mintime maxtime fractime lastsol current = true ↔
        (le (sub current lastsol) mintime = false ∧
          gt (sub current lastsol) maxtime = true))) := by
  refine ⟨?_, ?_, ?_⟩
  · intro h
    simp [shouldStop, SCIP_Real.le_eq_true_of_eq _ _ h]
  · intro h
    have hmax := SCIP_Real.gt_eq_false_of_eq _ _ h
    cases hm : le (sub current lastsol) mintime <;> simp [shouldStop, hm, hmax]
  · intro h
    have hfrac := SCIP_Real.gt_eq_false_of_eq _ _ h
    cases hm : le (sub current lastsol) mintime <;> simp [shouldStop, hm, hfrac]

/-- The two calls named in C9, one where the elapsed time equals the fractional
ceiling, and the call `shouldStop(0, 0.5, 0.16666666666666666, 2.5, 3.0)` at the
binary64 value of the third literal, where the elapsed time equals `maxtime` and the
product rounds to the same value: each is FALSE by the amended statement. -/
theorem shouldStop_boundary_exclusive_witness :
    (eq (sub (fin 2.0) (fin 0)) (fin 2.0) = true ∧
      shouldStop (fin 2.0) INFINITY (fin 0.25) (fin 0) (fin 2.0) = false) ∧
    (eq (sub (fin 1.0) (fin 0)) (fin 1.0) = true ∧
      shouldStop (fin 0) (fin 1.0) (fin 1.0) (fin 0) (fin 1.0) = false) ∧
    (eq (sub (fin 4.0) (fin 3.0)) (mul (fin 0.25) (fin 4.0)) = true ∧
      shouldStop (fin 0) (fin 5.0) (fin 0.25) (fin 3.0) (fin 4.0) = false) ∧
    (eq (sub (fin 3.0) (fin 2.5)) (fin 0.5) = true ∧
      (6004799503160661 / 36028797018963968 : ℚ) * 3.0 < 3.0 - 2.5 ∧
      shouldStop (fin 0) (fin 0.5) (fin (6004799503160661 / 36028797018963968))
        (fin 2.5) (fin 3.0) = false) := by
  have s2 : sub (fin 2.0) (fin 0) = fin 2 :=
    SCIP_Real.sub_eval 0 2 (by norm_num) (by norm_num) (by norm_num) (by norm_num)
  have s1 : sub (fin 1.0) (fin 0) = fin 1 :=
    SCIP_Real.sub_eval 0 1 (by norm_num) (by norm_num) (by norm_num) (by norm_num)
  have m1 : mul (fin 1.0) (fin 1.0) = fin 1 :=
    SCIP_Real.mul_eval 0 1 (by norm_num) (by norm_num) (by norm_num) (by norm_num)
  have s4 : sub (fin 4.0) (fin 3.0) = fin 1 :=
    SCIP_Real.sub_eval 0 1 (by norm_num) (by norm_num) (by norm_num) (by norm_num)
  have m4 : mul (fin 0.25) (fin 4.0) = fin 1 :=
    SCIP_Real.mul_eval 0 1 (by norm_num) (by norm_num) (by norm_num) (by norm_num)
  have s3 : sub (fin 3.0) (fin 2.5) = fin (1 / 2) :=
    SCIP_Real.sub_eval 1 1 (by norm_num) (by norm_num) (by norm_num) (by norm_num)
  have m3 : mul (fin (6004799503160661 / 36028797018963968)) (fin 3.0) = fin (1 / 2) := by
    have hb : binade ((6004799503160661 / 36028797018963968 : ℚ) * 3.0) = -2 :=
      binade_eq (by norm_num) (by norm_num) (by norm_num) (by norm_num)
    have h := SCIP_Real.round64_eval
      (x := (6004799503160661 / 36028797018963968 : ℚ) * 3.0)
      (n := 9007199254740992) (by norm_num) hb
      (Or.inr ⟨by norm_num [abs_of_neg], by norm_num⟩) (by norm_num)
    simp only [mul]
    rw [h]
    norm_num
  have e2 : eq (sub (fin 2.0) (fin 0)) (fin 2.0) = true := by rw [s2]; norm_num [eq]
  have e1 : eq (sub (fin 1.0) (fin 0)) (fin 1.0) = true := by rw [s1]; norm_num [eq]
  have e4 : eq (sub (fin 4.0) (fin 3.0)) (mul (fin 0.25) (fin 4.0)) = true := by
    rw [s4, m4]; norm_num [eq]
  have e3 : eq (sub (fin 3.0) (fin 2.5)) (fin 0.5) = true := by rw [s3]; norm_num [eq]
  refine ⟨⟨e2, ?_⟩, ⟨e1, ?_⟩, ⟨e4, ?_⟩, ⟨e3, by norm_num, ?_⟩⟩
  · exact (shouldStop_boundary_exclusive _ _ _ _ _).1 e2
  · have hiff := (shouldStop_boundary_exclusive (fin 0) (fin 1.0) (fin 1.0) (fin 0)
      (fin 1.0)).2.1 e1
    have hno : ¬ (le (sub (fin 1.0) (fin 0)) (fin 0) = false ∧
        gt (sub (fin 1.0) (fin 0)) (mul (fin 1.0) (fin 1.0)) = true) := by
      rw [s1, m1]; norm_num [le, gt, lt]
    exact Bool.eq_false_iff.mpr (fun hs => hno (hiff.mp hs))
  · have hiff := (shouldStop_boundary_exclusive (fin 0) (fin 5.0) (fin 0.25) (fin 3.0)
      (fin 4.0)).2.2 e4
    have hno : ¬ (le (sub (fin 4.0) (fin 3.0)) (fin 0) = false ∧
        gt (sub (fin 4.0) (fin 3.0)) (fin 5.0) = true) := by
      rw [s4]; norm_num [le, gt, lt]
    exact Bool.eq_false_iff.mpr (fun hs => hno (hiff.mp hs))
  · have hiff := (shouldStop_boundary_exclusive (fin 0) (fin 0.5)
      (fin (6004799503160661 / 36028797018963968)) (fin 2.5) (fin 3.0)).2.1 e3
    have hno : ¬ (le (sub (fin 3.0) (fin 2.5)) (fin 0) = false ∧
        gt (sub (fin 3.0) (fin 2.5))
          (mul (fin (6004799503160661 / 36028797018963968)) (fin 3.0)) = true) := by
      rw [s3, m3]; norm_num [le, gt, lt]
    exact Bool.eq_false_iff.mpr (fun hs => hno (hiff.mp hs))

/-- Claim C10: the default bounds never interrupt.  With `mintime = 0`,
`maxtime = +inf`, `fractime = 1.0` and `lastImprovementTime = 0`, `shouldStop` returns
FALSE for every current time: the finite non-negative ones, `+inf`, and all others. -/
theorem shouldStop_default_never (t : SCIP_Real) :
    shouldStop (fin 0.0) INFINITY (fin 1.0) (fin 0.0) t = false := by
  cases t with
  | fin a =>
    have e1 : sub (fin a) (fin 0.0) = round64 a := by
      simp only [sub]
      congr 1
      norm_num
    have e2 : mul (fin 1.0) (fin a) = round64 a := by
      simp only [mul]
      congr 1
      norm_num
    exact shouldStop_of_not _ _ _ _ _ (by rw [INFINITY, SCIP_Real.gt_pinf])
      (by rw [e1, e2, SCIP_Real.gt_self])
  | pinf => norm_num [shouldStop, sub, mul, le, gt, lt, INFINITY, signedInf]
  | ninf => norm_num [shouldStop, sub, mul, le, gt, lt, INFINITY, signedInf]
  | nan => norm_num [shouldStop, sub, mul, le, gt, lt, INFINITY, signedInf]

/-! ## The event handler -/

/-- In a state whose `lastsolval` is `+inf`, `significantImprovement` returns TRUE and
the callback on `BESTSOLFOUND` records the candidate value and the current time. -/
theorem eventExec_candidate_sentinel (d : SCIP_EventhdlrData) (newsolval : SCIP_Real)
    (objsense : SCIP_OBJSENSE) (now : SCIP_Real) (h : d.lastsolval = INFINITY) :
    significantImprovement d newsolval objsense = .ok true ∧
    eventExecPrimalstall d (.BESTSOLFOUND newsolval objsense now)
      = .ok (⟨d.abstol, d.reltol, d.mintime, d.maxtime, d.fractime, newsolval, now⟩,
          false) := by
  have hs : significantImprovement d newsolval objsense = .ok true := by
    simp [significantImprovement, h, INFINITY, eq]
  refine ⟨hs, ?_⟩
  simp [eventExecPrimalstall, hs, bind, Except.bind, pure, Except.pure]

/-- The callback on any other event returns the data unchanged and interrupts exactly
when `shouldStop` holds. -/
theorem eventExec_tick (d : SCIP_EventhdlrData) (now : SCIP_Real) :
    eventExecPrimalstall d (.NODESOLVED now)
      = .ok (d, shouldStop d.mintime d.maxtime d.fractime d.lastsoltime now) := by
  cases hs : shouldStop d.mintime d.maxtime d.fractime d.lastsoltime now <;>
    simp [eventExecPrimalstall, timeIsUp, hs, pure, Except.pure]

/-- A callback on `BESTSOLFOUND` that returns leaves `lastsolval` as it was or sets it
to the candidate value. -/
theorem eventExec_lastsolval (d : SCIP_EventhdlrData) (v : SCIP_Real)
    (o : SCIP_OBJSENSE) (t : SCIP_Real) (r : SCIP_EventhdlrData × Bool)
    (h : eventExecPrimalstall d (.BESTSOLFOUND v o t) = .ok r) :
    r.1.lastsolval = v ∨ r.1.lastsolval = d.lastsolval := by
  cases hsig : significantImprovement d v o with
  | error f => simp [eventExecPrimalstall, hsig, bind, Except.bind] at h
  | ok c =>
    cases c <;>
      simp [eventExecPrimalstall, hsig, bind, Except.bind, pure, Except.pure] at h <;>
      subst h <;> simp

/-- Claim C11: the first candidate is always accepted.  In a state whose `lastsolval`
is `+inf`, for every configuration, sense, candidate value and time,
`significantImprovement` returns TRUE without calling `significant`, and the callback
sets the state to the candidate value and the current time, leaving the five
parameters as they are and not interrupting. -/
theorem eventExec_first_candidate (d : SCIP_EventhdlrData) (newsolval : SCIP_Real)
    (objsense : SCIP_OBJSENSE) (now : SCIP_Real) (h : d.lastsolval = INFINITY) :
    significantImprovement d newsolval objsense = .ok true ∧
    eventExecPrimalstall d (.BESTSOLFOUND newsolval objsense now)
      = .ok (⟨d.abstol, d.reltol, d.mintime, d.maxtime, d.fractime, newsolval, now⟩,
          false) :=
  eventExec_candidate_sentinel d newsolval objsense now h

/-- The scenario named in C11: with the defaults, the candidate `5.0` at time `0.0`
when minimizing yields the state `(5.0, 0.0)`. -/
theorem eventExec_first_candidate_witness :
    defaultData.lastsolval = INFINITY ∧
    eventExecPrimalstall defaultData (.BESTSOLFOUND (fin 5.0) .MINIMIZE (fin 0.0))
      = .ok (⟨INFINITY, fin 0.01, fin 0.0, INFINITY, fin 1.0, fin 5.0, fin 0.0⟩, false) :=
  ⟨rfl, (eventExec_first_candidate defaultData (fin 5.0) .MINIMIZE (fin 0.0) rfl).2⟩

/-- Claim C12: a later candidate updates both state fields or neither.  In a state
whose `lastsolval` is not `+inf` (a finite one in particular): if `significant`
returns TRUE on the recorded value, the candidate and the two tolerances, the new
state is the candidate value and the current time; if it returns FALSE, the data are
unchanged; if the call is undefined, so is the callback.  Whenever the callback
returns, the five parameters are unchanged and the two state fields are either both
the new ones or both the old ones. -/
theorem eventExec_later_candidate (d : SCIP_EventhdlrData) (newsolval : SCIP_Real)
    (objsense : SCIP_OBJSENSE) (now : SCIP_Real) (h : d.lastsolval ≠ INFINITY) :
    (significant d.lastsolval newsolval d.abstol d.reltol objsense = .ok true →
      eventExecPrimalstall d (.BESTSOLFOUND newsolval objsense now)
        = .ok (⟨d.abstol, d.reltol, d.mintime, d.maxtime, d.fractime, newsolval, now⟩,
            false)) ∧
    (significant d.lastsolval newsolval d.abstol d.reltol objsense = .ok false →
      eventExecPrimalstall d (.BESTSOLFOUND newsolval objsense now) = .ok (d, false)) ∧
    (∀ f, significant d.lastsolval newsolval d.abstol d.reltol objsense = .error f →
      eventExecPrimalstall d (.BESTSOLFOUND newsolval objsense now) = .error f) ∧
    (∀ r, eventExecPrimalstall d (.BESTSOLFOUND newsolval objsense now) = .ok r →
      r.1.abstol = d.abstol ∧ r.1.reltol = d.reltol ∧ r.1.mintime = d.mintime ∧
      r.1.maxtime = d.maxtime ∧ r.1.fractime = d.fractime ∧
      ((r.1.lastsolval = newsolval ∧ r.1.lastsoltime = now) ∨
        (r.1.lastsolval = d.lastsolval ∧ r.1.lastsoltime = d.lastsoltime))) := by
  have hne : eq d.lastsolval INFINITY = false := by
    cases hv : d.lastsolval <;> simp_all [INFINITY, eq]
  have hs : significantImprovement d newsolval objsense
      = significant d.lastsolval newsolval d.abstol d.reltol objsense := by
    simp [significantImprovement, hne]
  refine ⟨?_, ?_, ?_, ?_⟩
  · intro ht
    simp [eventExecPrimalstall, hs, ht, bind, Except.bind, pure, Except.pure]
  · intro hf
    simp [eventExecPrimalstall, hs, hf, bind, Except.bind, pure, Except.pure]
  · intro f he
    simp [eventExecPrimalstall, hs, he, bind, Except.bind]
  · intro r hr
    cases hsig : significant d.lastsolval newsolval d.abstol d.reltol objsense with
    | error f =>
      simp [eventExecPrimalstall, hs, hsig, bind, Except.bind] at hr
    | ok b =>
      cases b
      · simp [eventExecPrimalstall, hs, hsig, bind, Except.bind, pure, Except.pure] at hr
        subst hr
        simp
      · simp [eventExecPrimalstall, hs, hsig, bind, Except.bind, pure, Except.pure] at hr
        subst hr
        simp

/-- Two instances of C12 from the recorded value `10.0` with the default tolerances:
the candidate `1.0` is significant and replaces the state, the candidate `9.95` is
not and leaves the data unchanged. -/
theorem eventExec_later_candidate_witness :
    eventExecPrimalstall ⟨INFINITY, fin 0.01, fin 0.0, INFINITY, fin 1.0, fin 10.0, fin 2.0⟩
        (.BESTSOLFOUND (fin 1.0) .MINIMIZE (fin 7.0))
      = .ok (⟨INFINITY, fin 0.01, fin 0.0, INFINITY, fin 1.0, fin 1.0, fin 7.0⟩, false) ∧
    eventExecPrimalstall ⟨INFINITY, fin 0.01, fin 0.0, INFINITY, fin 1.0, fin 10.0, fin 2.0⟩
        (.BESTSOLFOUND (fin 9.95) .MINIMIZE (fin 7.0))
      = .ok (⟨INFINITY, fin 0.01, fin 0.0, INFINITY, fin 1.0, fin 10.0, fin 2.0⟩, false) := by
  have hd : (C.toInt (fin 10.0) >>= C.abs) = .ok 10 :=
    C.abs_toInt_eval _ 10 (by norm_num [abs_of_pos]) (by norm_num [abs_of_pos])
      (by norm_num [abs_of_pos])
  have hne : ne (fin 10.0) (fin 0) = true := by norm_num [ne, eq]
  constructor
  · have hi : improvement (fin 10.0) (fin 1.0) .MINIMIZE = fin 9 :=
      SCIP_Real.sub_eval 0 9 (by norm_num) (by norm_num) (by norm_num) (by norm_num)
    have B2 : round64 (1 / 2) = fin (1 / 2) :=
      SCIP_Real.round64_exact 1 1 (by norm_num) (by norm_num) (by norm_num)
    have B1 : round64 1 = fin 1 :=
      SCIP_Real.round64_exact 0 1 (by norm_num) (by norm_num) (by norm_num)
    obtain ⟨q, hq, hq1, _⟩ := SCIP_Real.div_between (a := 9) (b := ((10 : Int) : ℚ))
      (by norm_num) B2 B1 (by norm_num) (by norm_num)
    exact (eventExec_later_candidate
      ⟨INFINITY, fin 0.01, fin 0.0, INFINITY, fin 1.0, fin 10.0, fin 2.0⟩
      (fin 1.0) .MINIMIZE (fin 7.0) (by simp [INFINITY])).1 (by
        rw [significant_relative_old _ _ _ _ _ 10 (by rw [hi]; norm_num [le])
          (by rw [INFINITY, SCIP_Real.gt_pinf]) hne hd, hi, ofInt, hq]
        simp only [gt, lt, Except.ok.injEq, decide_eq_true_eq]
        norm_num
        linarith)
  · have C32 : round64 (1 / 32) = fin (1 / 32) :=
      SCIP_Real.round64_exact 5 1 (by norm_num) (by norm_num) (by norm_num)
    have C16 : round64 (1 / 16) = fin (1 / 16) :=
      SCIP_Real.round64_exact 4 1 (by norm_num) (by norm_num) (by norm_num)
    have C512 : round64 (1 / 512) = fin (1 / 512) :=
      SCIP_Real.round64_exact 9 1 (by norm_num) (by norm_num) (by norm_num)
    have C128 : round64 (1 / 128) = fin (1 / 128) :=
      SCIP_Real.round64_exact 7 1 (by norm_num) (by norm_num) (by norm_num)
    obtain ⟨r, hr, hr1, hr2⟩ := SCIP_Real.sub_between (a := 10.0) (b := 9.95) C32 C16
      (by norm_num) (by norm_num)
    have hi : improvement (fin 10.0) (fin 9.95) .MINIMIZE = fin r := hr
    obtain ⟨q, hq, _, hq2⟩ := SCIP_Real.div_between (a := r) (b := ((10 : Int) : ℚ))
      (by norm_num) C512 C128
      (by rw [le_div_iff₀ (by norm_num)]; push_cast; linarith)
      (by rw [div_le_iff₀ (by norm_num)]; push_cast; linarith)
    exact (eventExec_later_candidate
      ⟨INFINITY, fin 0.01, fin 0.0, INFINITY, fin 1.0, fin 10.0, fin 2.0⟩
      (fin 9.95) .MINIMIZE (fin 7.0) (by simp [INFINITY])).2.1 (by
        rw [significant_relative_old _ _ _ _ _ 10
          (by rw [hi]; simp only [le, decide_eq_false_iff_not, not_le]; linarith)
          (by rw [INFINITY, SCIP_Real.gt_pinf]) hne hd, hi, ofInt, hq]
        simp only [gt, lt, Except.ok.injEq, decide_eq_false_iff_not, not_lt]
        norm_num
        linarith)

/-- Claim C13: a progress tick is a pure read.  For every handler data and time, the
callback on a tick returns the data unchanged, and interrupts exactly when `shouldStop`
holds of the three time parameters, the recorded time and the current time. -/
theorem eventExec_tick_pure (d : SCIP_EventhdlrData) (now : SCIP_Real) :
    eventExecPrimalstall d (.NODESOLVED now)
      = .ok (d, shouldStop d.mintime d.maxtime d.fractime d.lastsoltime now) :=
  eventExec_tick d now

/-- The scenario named in C13: with `mintime = 2`, `maxtime = 10`, `fractime = 1.0` and
an improvement accepted at time `0`, the ticks at `1.0` and `3.0` do not interrupt and
the tick at `11.0` does; the data stay as the accepted candidate left them. -/
theorem eventExec_tick_pure_witness :
    eventExecPrimalstall (initialData INFINITY (fin 0.01) (fin 2) (fin 10) (fin 1.0))
        (.BESTSOLFOUND (fin 5.0) .MINIMIZE (fin 0))
      = .ok (⟨INFINITY, fin 0.01, fin 2, fin 10, fin 1.0, fin 5.0, fin 0⟩, false) ∧
    eventExecPrimalstall ⟨INFINITY, fin 0.01, fin 2, fin 10, fin 1.0, fin 5.0, fin 0⟩
        (.NODESOLVED (fin 1.0))
      = .ok (⟨INFINITY, fin 0.01, fin 2, fin 10, fin 1.0, fin 5.0, fin 0⟩, false) ∧
    eventExecPrimalstall ⟨INFINITY, fin 0.01, fin 2, fin 10, fin 1.0, fin 5.0, fin 0⟩
        (.NODESOLVED (fin 3.0))
      = .ok (⟨INFINITY, fin 0.01, fin 2, fin 10, fin 1.0, fin 5.0, fin 0⟩, false) ∧
    eventExecPrimalstall ⟨INFINITY, fin 0.01, fin 2, fin 10, fin 1.0, fin 5.0, fin 0⟩
        (.NODESOLVED (fin 11.0))
      = .ok (⟨INFINITY, fin 0.01, fin 2, fin 10, fin 1.0, fin 5.0, fin 0⟩, true) := by
  have s1 : sub (fin 1.0) (fin 0) = fin 1 :=
    SCIP_Real.sub_eval 0 1 (by norm_num) (by norm_num) (by norm_num) (by norm_num)
  have s3 : sub (fin 3.0) (fin 0) = fin 3 :=
    SCIP_Real.sub_eval 0 3 (by norm_num) (by norm_num) (by norm_num) (by norm_num)
  have m3 : mul (fin 1.0) (fin 3.0) = fin 3 :=
    SCIP_Real.mul_eval 0 3 (by norm_num) (by norm_num) (by norm_num) (by norm_num)
  have s11 : sub (fin 11.0) (fin 0) = fin 11 :=
    SCIP_Real.sub_eval 0 11 (by norm_num) (by norm_num) (by norm_num) (by norm_num)
  refine ⟨?_, ?_, ?_, ?_⟩
  · simp [eventExecPrimalstall, significantImprovement, initialData, DEFAULT_LASTSOLVAL,
      DEFAULT_LASTSOLTIME, INFINITY, eq, bind, Except.bind, pure, Except.pure]
  · rw [eventExec_tick_pure]
    simp only
    rw [shouldStop_of_le _ _ _ _ _ (by rw [s1]; norm_num [le])]
  · rw [eventExec_tick_pure]
    simp only
    rw [shouldStop_of_not _ _ _ _ _ (by rw [s3]; norm_num [gt, lt])
      (by rw [s3, m3]; norm_num [gt, lt])]
  · rw [eventExec_tick_pure]
    simp only
    rw [shouldStop_of_gt_max _ _ _ _ _ (by rw [s11]; norm_num [le])
      (by rw [s11]; norm_num [gt, lt])]

/-! ## Runs of the event handler -/

/-- A callback that returns leaves the five parameters alone, and its two state fields
are either the old ones or the candidate value and the current time. -/
theorem eventExec_frame (d : SCIP_EventhdlrData) (e : SCIP_EVENT)
    (r : SCIP_EventhdlrData × Bool) (h : eventExecPrimalstall d e = .ok r) :
    r.1.abstol = d.abstol ∧ r.1.reltol = d.reltol ∧ r.1.mintime = d.mintime ∧
    r.1.maxtime = d.maxtime ∧ r.1.fractime = d.fractime ∧
    (r.1.lastsoltime = d.lastsoltime ∨ r.1.lastsoltime = e.totaltime) := by
  cases e with
  | NODESOLVED t =>
    cases hs : timeIsUp d t <;>
      simp [eventExecPrimalstall, hs, pure, Except.pure] at h <;> subst h <;> simp
  | BESTSOLFOUND v o t =>
    cases hsig : significantImprovement d v o with
    | error f => simp [eventExecPrimalstall, hsig, bind, Except.bind] at h
    | ok b =>
      cases b <;>
        simp [eventExecPrimalstall, hsig, bind, Except.bind, pure, Except.pure] at h <;>
        subst h <;> simp [SCIP_EVENT.totaltime]

/-- A valid time is a finite value that is not negative. -/
theorem validTime_elim (x : SCIP_Real) (h : validTime x = true) :
    ∃ t : ℚ, x = fin t ∧ 0 ≤ t := by
  cases x <;> simp_all [validTime, isFinite, le]

/-- A callback on `BESTSOLFOUND` never interrupts the solver. -/
theorem eventExec_candidate_no_interrupt (d : SCIP_EventhdlrData) (v : SCIP_Real)
    (o : SCIP_OBJSENSE) (t : SCIP_Real) (r : SCIP_EventhdlrData × Bool)
    (h : eventExecPrimalstall d (.BESTSOLFOUND v o t) = .ok r) : r.2 = false := by
  cases hsig : significantImprovement d v o with
  | error f => simp [eventExecPrimalstall, hsig, bind, Except.bind] at h
  | ok c =>
    cases c <;>
      simp [eventExecPrimalstall, hsig, bind, Except.bind, pure, Except.pure] at h <;>
      subst h <;> rfl

/-- With the default time parameters and a recorded time that is finite and not
negative, `shouldStop` is FALSE at every finite current time that is not negative. -/
theorem shouldStop_default_of_nonneg (q t : ℚ) (hq : 0 ≤ q) :
    shouldStop DEFAULT_MINTIME DEFAULT_MAXTIME DEFAULT_FRACTIME (fin q) (fin t) = false := by
  have hle : le (sub (fin t) (fin q)) (mul DEFAULT_FRACTIME (fin t)) = true := by
    show le (round64 (t - q)) (round64 (1.0 * t)) = true
    exact SCIP_Real.round64_mono (by norm_num; linarith)
  exact shouldStop_of_not _ _ _ _ _ (by rw [DEFAULT_MAXTIME, INFINITY, SCIP_Real.gt_pinf])
    (SCIP_Real.gt_eq_false_of_le _ _ hle)

/-- The interrupt flags of a run with the default time parameters, started from data
whose recorded time is finite and not negative. -/
theorem trace_default_no_interrupt (events : List SCIP_EVENT) :
    ∀ (d : SCIP_EventhdlrData) (q : ℚ), d.mintime = DEFAULT_MINTIME →
      d.maxtime = DEFAULT_MAXTIME → d.fractime = DEFAULT_FRACTIME →
      d.lastsoltime = fin q → 0 ≤ q →
      (∀ e ∈ events, validTime e.totaltime = true) →
      ∀ s ∈ trace d events, s.interrupt = false := by
  induction events with
  | nil => intro d q _ _ _ _ _ _ s hs; simp [trace] at hs
  | cons e es ih =>
    intro d q hmin hmax hfrac hlast hq hval s hs
    have hve : validTime e.totaltime = true := hval e (List.mem_cons_self _ _)
    have hves : ∀ e' ∈ es, validTime e'.totaltime = true :=
      fun e' he' => hval e' (List.mem_cons_of_mem _ he')
    obtain ⟨t, ht, ht0⟩ := validTime_elim e.totaltime hve
    cases hexec : eventExecPrimalstall d e with
    | error f => simp [trace, hexec] at hs
    | ok r =>
      obtain ⟨d', b⟩ := r
      have hfr := eventExec_frame d e (d', b) hexec
      simp only at hfr
      obtain ⟨_, _, hmin', hmax', hfrac', hlast'⟩ := hfr
      have hb : b = false := by
        cases e with
        | NODESOLVED t' =>
          have htick := eventExec_tick d t'
          rw [hexec] at htick
          simp only [SCIP_EVENT.totaltime] at ht
          have hb' : b = shouldStop d.mintime d.maxtime d.fractime d.lastsoltime t' :=
            congrArg Prod.snd (Except.ok.inj htick)
          rw [hb', hmin, hmax, hfrac, hlast, ht]
          exact shouldStop_default_of_nonneg q t hq
        | BESTSOLFOUND v o t' =>
          exact eventExec_candidate_no_interrupt d v o t' (d', b) hexec
      simp only [trace, hexec, List.mem_cons] at hs
      rcases hs with hs | hs
      · rw [hs]; exact hb
      · rcases hlast' with hl | hl
        · exact ih d' q (hmin'.trans hmin) (hmax'.trans hmax) (hfrac'.trans hfrac)
            (hl.trans hlast) hq hves s hs
        · exact ih d' t (hmin'.trans hmin) (hmax'.trans hmax) (hfrac'.trans hfrac)
            (hl.trans ht) ht0 hves s hs

/-- Claim C14: a monitor with the default configuration never signals interrupt.  For
every sequence of improvement candidates and ticks whose times are finite and not
negative, no callback of the run from the default data interrupts the solver. -/
theorem default_never_interrupts (events : List SCIP_EVENT)
    (htimes : ∀ e ∈ events, validTime e.totaltime = true) :
    ∀ s ∈ trace defaultData events, s.interrupt = false :=
  trace_default_no_interrupt events defaultData 0 rfl rfl rfl
    (by norm_num [defaultData, DEFAULT_LASTSOLTIME]) le_rfl htimes

/-- The witness scenario of C14: with the defaults, the candidate `5.0` is accepted at
time `0.0` and the tick at `100.0` does not interrupt. -/
theorem default_never_interrupts_witness :
    (∀ e ∈ [SCIP_EVENT.BESTSOLFOUND (fin 5.0) .MINIMIZE (fin 0.0),
        SCIP_EVENT.NODESOLVED (fin 100.0)], validTime e.totaltime = true) ∧
    (∀ s ∈ trace defaultData [SCIP_EVENT.BESTSOLFOUND (fin 5.0) .MINIMIZE (fin 0.0),
        SCIP_EVENT.NODESOLVED (fin 100.0)], s.interrupt = false) ∧
    (trace defaultData [SCIP_EVENT.BESTSOLFOUND (fin 5.0) .MINIMIZE (fin 0.0),
        SCIP_EVENT.NODESOLVED (fin 100.0)]).length = 2 := by
  have hv : ∀ e ∈ [SCIP_EVENT.BESTSOLFOUND (fin 5.0) .MINIMIZE (fin 0.0),
      SCIP_EVENT.NODESOLVED (fin 100.0)], validTime e.totaltime = true := by
    intro e he
    simp only [List.mem_cons, List.mem_singleton, List.not_mem_nil, or_false] at he
    rcases he with he | he <;> subst he <;>
      norm_num [SCIP_EVENT.totaltime, validTime, isFinite, le]
  refine ⟨hv, default_never_interrupts _ hv, ?_⟩
  have h1 := (eventExec_candidate_sentinel defaultData (fin 5.0) .MINIMIZE (fin 0.0) rfl).2
  simp [trace, h1, eventExec_tick]

/-- A run from data whose `lastsolval` is not `+inf`, over candidates whose values are
not `+inf`, never brings `lastsolval` back to `+inf`. -/
theorem finalData_not_sentinel (events : List SCIP_EVENT) :
    ∀ d : SCIP_EventhdlrData, d.lastsolval ≠ INFINITY →
      (∀ v o t, SCIP_EVENT.BESTSOLFOUND v o t ∈ events → v ≠ INFINITY) →
      (finalData d events).lastsolval ≠ INFINITY := by
  induction events with
  | nil => intro d hd _; simpa [finalData] using hd
  | cons e es ih =>
    intro d hd hv
    have hves : ∀ v o t, SCIP_EVENT.BESTSOLFOUND v o t ∈ es → v ≠ INFINITY :=
      fun v o t h => hv v o t (List.mem_cons_of_mem _ h)
    cases hexec : eventExecPrimalstall d e with
    | error f => simpa [finalData, hexec] using hd
    | ok r =>
      obtain ⟨d', b⟩ := r
      have hd' : d'.lastsolval ≠ INFINITY := by
        cases e with
        | NODESOLVED t =>
          have htick := eventExec_tick d t
          rw [hexec] at htick
          have : d' = d := congrArg Prod.fst (Except.ok.inj htick)
          rw [this]; exact hd
        | BESTSOLFOUND v o t =>
          rcases eventExec_lastsolval d v o t (d', b) hexec with h | h
          · simp only at h
            rw [h]; exact hv v o t (List.mem_cons_self _ _)
          · simp only at h
            rw [h]; exact hd
      simpa [finalData, hexec] using ih d' hd' hves

/-- Claim C15, as stated, fails: from the default data, the candidate `+inf` at time
`1.0` is accepted (the first candidate always is) and the state is written, the
recorded time becoming `1.0`, and yet `lastsolval` still equals `+inf`. -/
theorem sentinel_counterexample :
    (trace defaultData [SCIP_EVENT.BESTSOLFOUND INFINITY .MINIMIZE (fin 1.0)]).map
        Step.accepted = [true] ∧
    (finalData defaultData
        [SCIP_EVENT.BESTSOLFOUND INFINITY .MINIMIZE (fin 1.0)]).lastsoltime = fin 1.0 ∧
    defaultData.lastsoltime ≠ fin 1.0 ∧
    eq (finalData defaultData
        [SCIP_EVENT.BESTSOLFOUND INFINITY .MINIMIZE (fin 1.0)]).lastsolval INFINITY
      = true := by
  have h1 := eventExec_candidate_sentinel defaultData INFINITY .MINIMIZE (fin 1.0) rfl
  refine ⟨?_, ?_, ?_, ?_⟩
  · simp [trace, h1.2, Step.accepted, h1.1]
  · simp [finalData, h1.2]
  · norm_num [defaultData, DEFAULT_LASTSOLTIME]
  · simp only [finalData, h1.2]
    simp [INFINITY, eq]

/-- Claim C15, amended: the sentinel invariant for candidates whose values are not
`+inf` (finite values in particular).  From any data whose `lastsolval` is the initial
`+inf`, after any sequence of such candidates and of ticks, `lastsolval == +inf` holds
exactly when no step of the run accepted a candidate. -/
theorem sentinel_invariant (d : SCIP_EventhdlrData) (events : List SCIP_EVENT)
    (h0 : d.lastsolval = INFINITY)
    (hv : ∀ v o t, SCIP_EVENT.BESTSOLFOUND v o t ∈ events → v ≠ INFINITY) :
    eq (finalData d events).lastsolval INFINITY = true ↔
      ∀ s ∈ trace d events, s.accepted = false := by
  induction events generalizing d with
  | nil => simp [finalData, trace, h0, INFINITY, eq]
  | cons e es ih =>
    have hves : ∀ v o t, SCIP_EVENT.BESTSOLFOUND v o t ∈ es → v ≠ INFINITY :=
      fun v o t h => hv v o t (List.mem_cons_of_mem _ h)
    cases e with
    | NODESOLVED t =>
      have htick := eventExec_tick d t
      simp only [finalData, trace, htick, List.mem_cons, forall_eq_or_imp]
      rw [ih d h0 hves]
      simp [Step.accepted]
    | BESTSOLFOUND v o t =>
      have h1 := eventExec_candidate_sentinel d v o t h0
      have hvne : v ≠ INFINITY := hv v o t (List.mem_cons_self _ _)
      have hfin := finalData_not_sentinel es
        ⟨d.abstol, d.reltol, d.mintime, d.maxtime, d.fractime, v, t⟩ hvne hves
      have hfalse : eq (finalData
          ⟨d.abstol, d.reltol, d.mintime, d.maxtime, d.fractime, v, t⟩ es).lastsolval
          INFINITY = false := by
        cases hx : (finalData
          ⟨d.abstol, d.reltol, d.mintime, d.maxtime, d.fractime, v, t⟩ es).lastsolval <;>
          simp_all [INFINITY, eq]
      simp only [finalData, trace, h1.2, List.mem_cons, forall_eq_or_imp]
      simp [hfalse, Step.accepted, h1.1]

/-- Two runs for C15 from the default data: after the candidate `5.0` and a tick the
sentinel is gone and a step has accepted; after a tick alone the sentinel is still
there and no step has accepted. -/
theorem sentinel_invariant_witness :
    (defaultData.lastsolval = INFINITY ∧
      (∀ v o t, SCIP_EVENT.BESTSOLFOUND v o t ∈
          [SCIP_EVENT.BESTSOLFOUND (fin 5.0) .MINIMIZE (fin 0.0),
            SCIP_EVENT.NODESOLVED (fin 100.0)] → v ≠ INFINITY) ∧
      (eq (finalData defaultData [SCIP_EVENT.BESTSOLFOUND (fin 5.0) .MINIMIZE (fin 0.0),
            SCIP_EVENT.NODESOLVED (fin 100.0)]).lastsolval INFINITY = true ↔
        ∀ s ∈ trace defaultData [SCIP_EVENT.BESTSOLFOUND (fin 5.0) .MINIMIZE (fin 0.0),
            SCIP_EVENT.NODESOLVED (fin 100.0)], s.accepted = false)) ∧
    eq (finalData defaultData [SCIP_EVENT.BESTSOLFOUND (fin 5.0) .MINIMIZE (fin 0.0),
        SCIP_EVENT.NODESOLVED (fin 100.0)]).lastsolval INFINITY = false ∧
    eq (finalData defaultData [SCIP_EVENT.NODESOLVED (fin 3.0)]).lastsolval INFINITY
      = true ∧
    (∀ s ∈ trace defaultData [SCIP_EVENT.NODESOLVED (fin 3.0)], s.accepted = false) := by
  have hv : ∀ v o t, SCIP_EVENT.BESTSOLFOUND v o t ∈
      [SCIP_EVENT.BESTSOLFOUND (fin 5.0) .MINIMIZE (fin 0.0),
        SCIP_EVENT.NODESOLVED (fin 100.0)] → v ≠ INFINITY := by
    intro v o t hmem
    simp only [List.mem_cons, List.mem_singleton, List.not_mem_nil, or_false] at hmem
    rcases hmem with hmem | hmem
    · cases hmem
      simp [INFINITY]
    · cases hmem
  have hv' : ∀ v o t, SCIP_EVENT.BESTSOLFOUND v o t ∈ [SCIP_EVENT.NODESOLVED (fin 3.0)] →
      v ≠ INFINITY := by
    intro v o t hmem
    simp at hmem
  have h1 := (eventExec_candidate_sentinel defaultData (fin 5.0) .MINIMIZE (fin 0.0) rfl).2
  have hfin3 : eq (finalData defaultData [SCIP_EVENT.NODESOLVED (fin 3.0)]).lastsolval
      INFINITY = true := by
    simp only [finalData, eventExec_tick]
    simp [defaultData, DEFAULT_LASTSOLVAL, INFINITY, eq]
  refine ⟨⟨rfl, hv, sentinel_invariant defaultData _ rfl hv⟩, ?_, hfin3,
    (sentinel_invariant defaultData _ rfl hv').mp hfin3⟩
  simp only [finalData, h1, eventExec_tick]
  simp [INFINITY, eq]

/-- The stall clock along a run, started from data whose recorded time `q` is finite,
not negative and not after `prev`, over events whose times are valid and form a
non-decreasing sequence after `prev`. -/
theorem trace_clock (events : List SCIP_EVENT) :
    ∀ (d : SCIP_EventhdlrData) (q prev : ℚ), d.lastsoltime = fin q → 0 ≤ q → q ≤ prev →
      List.Chain (fun a b => le a b = true) (fin prev)
        (events.map SCIP_EVENT.totaltime) →
      (∀ e ∈ events, validTime e.totaltime = true) →
      List.Chain (fun a b => le a b = true) d.lastsoltime
        ((trace d events).map (fun s => s.after.lastsoltime)) ∧
      ∀ s ∈ trace d events,
        le (fin 0) s.after.lastsoltime = true ∧
        le s.after.lastsoltime s.event.totaltime = true ∧
        le (fin 0) (sub s.event.totaltime s.before.lastsoltime) = true := by
  induction events with
  | nil => intro d q prev _ _ _ _ _; simp [trace]
  | cons e es ih =>
    intro d q prev hlast hq hqp hchain hval
    have hve : validTime e.totaltime = true := hval e (List.mem_cons_self _ _)
    have hves : ∀ e' ∈ es, validTime e'.totaltime = true :=
      fun e' he' => hval e' (List.mem_cons_of_mem _ he')
    obtain ⟨t, ht, ht0⟩ := validTime_elim e.totaltime hve
    simp only [List.map_cons, List.chain_cons] at hchain
    obtain ⟨hpt, hrest⟩ := hchain
    have hpt' : prev ≤ t := by simpa [ht, le] using hpt
    rw [ht] at hrest
    cases hexec : eventExecPrimalstall d e with
    | error f => simp [trace, hexec]
    | ok r =>
      obtain ⟨d', b⟩ := r
      have hfr := (eventExec_frame d e (d', b) hexec).2.2.2.2.2
      simp only at hfr
      obtain ⟨q', hq', hq0', hqq', hqt'⟩ :
          ∃ q' : ℚ, d'.lastsoltime = fin q' ∧ 0 ≤ q' ∧ q ≤ q' ∧ q' ≤ t := by
        rcases hfr with h | h
        · exact ⟨q, h.trans hlast, hq, le_rfl, hqp.trans hpt'⟩
        · exact ⟨t, h.trans ht, ht0, hqp.trans hpt', le_rfl⟩
      obtain ⟨ihc, ihs⟩ := ih d' q' t hq' hq0' hqt' hrest hves
      simp only [trace, hexec, List.map_cons, List.chain_cons, List.mem_cons,
        forall_eq_or_imp]
      refine ⟨⟨?_, ihc⟩, ⟨?_, ?_, ?_⟩, ihs⟩
      · simpa [hlast, hq', le] using hqq'
      · simpa [hq', le] using hq0'
      · simpa [hq', ht, le] using hqt'
      · rw [hlast, ht]
        exact SCIP_Real.round64_nonneg (sub_nonneg.mpr (hqp.trans hpt'))

/-- Claim C16: stall-clock monotonicity.  From data whose recorded time is the initial
`0.0`, over any sequence of candidates and ticks whose times are finite, not negative
and non-decreasing, the recorded time `lastsoltime` is non-decreasing along the run
and, after each event, lies between `0` and the time of that event; the elapsed time
`now - lastsoltime` seen by each callback, the ticks in particular, is not negative. -/
theorem stall_clock_monotone (d : SCIP_EventhdlrData) (events : List SCIP_EVENT)
    (h0 : d.lastsoltime = DEFAULT_LASTSOLTIME)
    (hvalid : ∀ e ∈ events, validTime e.totaltime = true)
    (hmono : List.Chain' (fun a b => le a b = true)
      (events.map SCIP_EVENT.totaltime)) :
    List.Chain (fun a b => le a b = true) d.lastsoltime
      ((trace d events).map (fun s => s.after.lastsoltime)) ∧
    ∀ s ∈ trace d events,
      le (fin 0) s.after.lastsoltime = true ∧
      le s.after.lastsoltime s.event.totaltime = true ∧
      le (fin 0) (sub s.event.totaltime s.before.lastsoltime) = true := by
  have h0' : d.lastsoltime = fin 0 := by
    rw [h0]; norm_num [DEFAULT_LASTSOLTIME]
  apply trace_clock events d 0 0 h0' le_rfl le_rfl _ hvalid
  cases events with
  | nil => simp
  | cons e es =>
    have hve : validTime e.totaltime = true := hvalid e (List.mem_cons_self _ _)
    simp only [List.map_cons, List.chain_cons]
    obtain ⟨t, ht, ht0⟩ := validTime_elim e.totaltime hve
    refine ⟨?_, hmono⟩
    simpa [ht, le] using ht0

/-- A run for C16 with the defaults: candidates at times `1` and `4` and ticks at
times `2`, `4` and `9`; the recorded times after the five callbacks are
`1, 1, 4, 4, 4`. -/
theorem stall_clock_monotone_witness :
    (trace defaultData
      [SCIP_EVENT.BESTSOLFOUND (fin 10) .MINIMIZE (fin 1), SCIP_EVENT.NODESOLVED (fin 2),
        SCIP_EVENT.BESTSOLFOUND (fin 5) .MINIMIZE (fin 4), SCIP_EVENT.NODESOLVED (fin 4),
        SCIP_EVENT.NODESOLVED (fin 9)]).map (fun s => s.after.lastsoltime)
      = [fin 1, fin 1, fin 4, fin 4, fin 4] ∧
    List.Chain (fun a b => le a b = true) defaultData.lastsoltime
      ((trace defaultData
        [SCIP_EVENT.BESTSOLFOUND (fin 10) .MINIMIZE (fin 1), SCIP_EVENT.NODESOLVED (fin 2),
          SCIP_EVENT.BESTSOLFOUND (fin 5) .MINIMIZE (fin 4), SCIP_EVENT.NODESOLVED (fin 4),
          SCIP_EVENT.NODESOLVED (fin 9)]).map (fun s => s.after.lastsoltime)) := by
  constructor
  · have h1 := (eventExec_candidate_sentinel defaultData (fin 10) .MINIMIZE (fin 1) rfl).2
    have h2 : eventExecPrimalstall
        ⟨defaultData.abstol, defaultData.reltol, defaultData.mintime, defaultData.maxtime,
          defaultData.fractime, fin 10, fin 1⟩ (.BESTSOLFOUND (fin 5) .MINIMIZE (fin 4))
        = .ok (⟨defaultData.abstol, defaultData.reltol, defaultData.mintime,
            defaultData.maxtime, defaultData.fractime, fin 5, fin 4⟩, false) := by
      have hi : improvement (fin 10) (fin 5) .MINIMIZE = fin 5 :=
        SCIP_Real.sub_eval 0 5 (by norm_num) (by norm_num) (by norm_num) (by norm_num)
      have hdiv : SCIP_Real.div (fin 5) (ofInt 10) = fin (1 / 2) :=
        SCIP_Real.div_eval 1 1 (by norm_num) (by norm_num) (by norm_num) (by norm_num)
          (by norm_num)
      have hsig : significant (fin 10) (fin 5) defaultData.abstol defaultData.reltol
          .MINIMIZE = .ok true := by
        rw [significant_relative_old _ _ _ _ _ 10 (by rw [hi]; norm_num [le])
          (by rw [hi]; simp [defaultData, DEFAULT_ABSTOL, INFINITY, gt, lt])
          (by norm_num [ne, eq])
          (C.abs_toInt_eval _ 10 (by norm_num [abs_of_pos]) (by norm_num [abs_of_pos])
            (by norm_num [abs_of_pos])), hi, hdiv]
        norm_num [defaultData, DEFAULT_RELTOL, gt, lt]
      simp [eventExecPrimalstall, significantImprovement, INFINITY, eq, hsig, bind,
        Except.bind, pure, Except.pure]
    simp [trace, h1, h2, eventExec_tick]
  · refine (stall_clock_monotone defaultData _ rfl ?_ ?_).1
    · intro e he
      simp only [List.mem_cons, List.mem_singleton, List.not_mem_nil, or_false] at he
      rcases he with he | he | he | he | he <;> subst he <;>
        norm_num [SCIP_EVENT.totaltime, validTime, isFinite, le]
    · norm_num [List.Chain', SCIP_EVENT.totaltime, le]

/-! ## The integer `abs` in the relative test -/

/-- The two relative branches of `significant` end in a value or in an undefined
conversion, never in a failed assertion. -/
theorem C.abs_toInt_no_assertion (x : SCIP_Real) (f : Int → Bool) :
    (C.toInt x >>= fun i => C.abs i >>= fun d => (pure (f d) : Except Fault Bool))
      ≠ .error .assertion := by
  cases x with
  | fin a =>
    by_cases hr : C.INT_MIN ≤ a.num.tdiv a.den ∧ a.num.tdiv a.den ≤ C.INT_MAX
    · by_cases hm : a.num.tdiv a.den = C.INT_MIN
      · simp only [C.toInt, if_pos hr, C.abs, if_pos hm, bind, Except.bind]
        simp
      · simp only [C.toInt, if_pos hr, C.abs, if_neg hm, bind, Except.bind, pure,
          Except.pure]
        simp
    · simp only [C.toInt, if_neg hr, bind, Except.bind]
      simp
  | pinf => simp [C.toInt, bind, Except.bind]
  | ninf => simp [C.toInt, bind, Except.bind]
  | nan => simp [C.toInt, bind, Except.bind]

/-- Claim C17: the division guard is unreachable.  For either sense, whenever
`significant` reaches its final branch (the improvement is not `<= 0`, it does not
exceed `abstol`, and `old != 0.0` is false), the asserted `new != 0.0` holds: the
real absolute value of `new` is not zero and the call does not end in a failed
assertion. -/
theorem significant_assert_holds (old new abstol reltol : SCIP_Real)
    (sense : SCIP_OBJSENSE)
    (hpos : le (improvement old new sense) (fin 0) = false)
    (habs : gt (improvement old new sense) abstol = false)
    (hold : ne old (fin 0) = false) :
    ne new (fin 0) = true ∧ fabs new ≠ fin 0 ∧
    significant old new abstol reltol sense ≠ .error .assertion := by
  have hnew : ne new (fin 0) = true := by
    cases old with
    | fin a =>
      have ha : a = 0 := by simpa [ne, eq] using hold
      subst ha
      cases new with
      | fin b =>
        by_contra hb
        have hb0 : b = 0 := by simpa [ne, eq] using hb
        subst hb0
        cases sense <;> simp [improvement, sub, SCIP_Real.round64_zero, le] at hpos
      | pinf => simp [ne, eq]
      | ninf => simp [ne, eq]
      | nan => simp [ne, eq]
    | pinf => simp [ne, eq] at hold
    | ninf => simp [ne, eq] at hold
    | nan => simp [ne, eq] at hold
  refine ⟨hnew, ?_, ?_⟩
  · cases new with
    | fin b =>
      have hb : b ≠ 0 := by simpa [ne, eq] using hnew
      by_cases hlt : b < 0
      · simp [fabs, hlt, hb]
      · simp [fabs, hlt, hb]
    | pinf => simp [fabs]
    | ninf => simp [fabs]
    | nan => simp [fabs]
  · simp only [significant, hpos, habs, hold, hnew, if_true, Bool.false_eq_true, if_false]
    exact C.abs_toInt_no_assertion new _

/-- The call named in C5 reaches the final branch: `significant(0.0, -1.0, INFINITY,
0.5, MINIMIZE)`. -/
theorem significant_assert_holds_witness :
    le (improvement (fin 0.0) (fin (-1.0)) .MINIMIZE) (fin 0) = false ∧
    gt (improvement (fin 0.0) (fin (-1.0)) .MINIMIZE) INFINITY = false ∧
    ne (fin 0.0) (fin 0) = false ∧
    ne (fin (-1.0)) (fin 0) = true ∧ fabs (fin (-1.0)) ≠ fin 0 ∧
    significant (fin 0.0) (fin (-1.0)) INFINITY (fin 0.5) .MINIMIZE ≠ .error .assertion := by
  have himp : improvement (fin 0.0) (fin (-1.0)) .MINIMIZE = fin 1 :=
    SCIP_Real.sub_eval 0 1 (by norm_num) (by norm_num) (by norm_num) (by norm_num)
  have h1 : le (improvement (fin 0.0) (fin (-1.0)) .MINIMIZE) (fin 0) = false := by
    rw [himp]; norm_num [le]
  have h2 : gt (improvement (fin 0.0) (fin (-1.0)) .MINIMIZE) INFINITY = false := by
    rw [INFINITY, SCIP_Real.gt_pinf]
  have h3 : ne (fin 0.0) (fin 0) = false := by norm_num [ne, eq]
  exact ⟨h1, h2, h3,
    significant_assert_holds (fin 0.0) (fin (-1.0)) INFINITY (fin 0.5) .MINIMIZE h1 h2 h3⟩

/-- Claim C18, as stated, fails.  At `significant(3.0, 1.2, INFINITY, 0.6, MINIMIZE)`,
taken at the binary64 values of `1.2` and `0.6`, the old value lies in the range
`1 <= |old| < 2^31` and truncates to `3`, the difference `old - new` is positive and
does not exceed `abstol`, and the quotient of the difference by `3` exceeds `reltol`;
but the division rounds the quotient to the binary64 value of `0.6`, which does not
exceed `reltol`, and the function returns FALSE. -/
theorem significant_relative_truncated_counterexample :
    round64 (5404319552844595 / 4503599627370496)
      = fin (5404319552844595 / 4503599627370496) ∧
    round64 (5404319552844595 / 9007199254740992)
      = fin (5404319552844595 / 9007199254740992) ∧
    (1 ≤ |(3 : ℚ)| ∧ |(3 : ℚ)| < 2147483648 ∧ ⌊|(3 : ℚ)|⌋ = 3) ∧
    (0 : ℚ) < 3 - 5404319552844595 / 4503599627370496 ∧
    le (fin (3 - 5404319552844595 / 4503599627370496)) INFINITY = true ∧
    (5404319552844595 / 9007199254740992 : ℚ)
      < (3 - 5404319552844595 / 4503599627370496) / ((3 : Int) : ℚ) ∧
    significant (fin 3) (fin (5404319552844595 / 4503599627370496)) INFINITY
      (fin (5404319552844595 / 9007199254740992)) .MINIMIZE = .ok false := by
  have hfl : ⌊|(3 : ℚ)|⌋ = 3 := by
    rw [Int.floor_eq_iff]; norm_num [abs_of_pos]
  have himp : improvement (fin 3) (fin (5404319552844595 / 4503599627370496)) .MINIMIZE
      = fin (8106479329266893 / 4503599627370496) :=
    SCIP_Real.sub_eval 52 8106479329266893 (by norm_num) (by norm_num) (by norm_num)
      (by norm_num)
  have hdiv : SCIP_Real.div (fin (8106479329266893 / 4503599627370496)) (ofInt 3)
      = fin (5404319552844595 / 9007199254740992) := by
    have hb : binade ((8106479329266893 / 4503599627370496 : ℚ) / ((3 : Int) : ℚ)) = -1 :=
      binade_eq (by norm_num) (by norm_num) (by norm_num) (by norm_num)
    have h := SCIP_Real.round64_eval
      (x := (8106479329266893 / 4503599627370496 : ℚ) / ((3 : Int) : ℚ))
      (n := 5404319552844595) (by norm_num) hb
      (Or.inl (by norm_num [abs_of_pos])) (by norm_num)
    have h3 : (((3 : Int) : ℚ)) ≠ 0 := by norm_num
    simp only [SCIP_Real.div, ofInt, if_neg h3]
    rw [h]
    norm_num
  refine ⟨?_, ?_, ⟨by norm_num [abs_of_pos], by norm_num [abs_of_pos], hfl⟩, by norm_num,
    by simp [le, INFINITY], by norm_num, ?_⟩
  · exact SCIP_Real.round64_anchor 5404319552844595 52 (by norm_num) (by norm_num)
      (by norm_num) (by norm_num) (by norm_num)
  · exact SCIP_Real.round64_anchor 5404319552844595 53 (by norm_num) (by norm_num)
      (by norm_num) (by norm_num) (by norm_num)
  · rw [significant_relative_old _ _ _ _ _ 3 (by rw [himp]; norm_num [le])
      (by rw [INFINITY, SCIP_Real.gt_pinf]) (by norm_num [ne, eq])
      (C.abs_toInt_eval 3 3 (by norm_num) (by norm_num) (by norm_num)), himp, hdiv]
    norm_num [gt, lt]

/-- Claim C18, amended: the denominator of the relative test is the integer `abs` of the
`double`, the magnitude truncated toward zero, and the test is made on the computed
values.  For every finite non-zero `old` of magnitude below `2^31` (those with
`1 <= |old|` in particular) and every computed improvement that is positive and does
not exceed `abstol`, `significant` returns the outcome of
`improvement / trunc(|old|) > reltol`, the improvement and the quotient being the
rounded results of the subtraction and the division. -/
theorem significant_relative_truncated (a : ℚ) (new abstol reltol : SCIP_Real)
    (sense : SCIP_OBJSENSE) (ha0 : a ≠ 0) (ha : |a| < 2147483648)
    (hpos : gt (improvement (fin a) new sense) (fin 0) = true)
    (habs : gt (improvement (fin a) new sense) abstol = false) :
    significant (fin a) new abstol reltol sense
      = .ok (gt (SCIP_Real.div (improvement (fin a) new sense) (ofInt ⌊|a|⌋)) reltol) :=
  significant_relative_old _ _ _ _ _ _ (SCIP_Real.le_eq_false_of_gt _ _ hpos) habs
    (by simp [ne, eq, ha0]) (C.abs_toInt_fin a ha)

/-- The call named in C18: `significant(1.9, 1.0, INFINITY, 0.5, MINIMIZE)` is TRUE,
the truncated magnitude of `1.9` being `1`, although the rule worded with the real
absolute value rejects it. -/
theorem significant_relative_truncated_witness :
    ((1.9 : ℚ) ≠ 0 ∧ |(1.9 : ℚ)| < 2147483648 ∧ 1 ≤ |(1.9 : ℚ)| ∧
      gt (improvement (fin 1.9) (fin 1.0) .MINIMIZE) (fin 0) = true ∧
      gt (improvement (fin 1.9) (fin 1.0) .MINIMIZE) INFINITY = false) ∧
    ⌊|(1.9 : ℚ)|⌋ = 1 ∧
    significant (fin 1.9) (fin 1.0) INFINITY (fin 0.5) .MINIMIZE = .ok true ∧
    specRelativeRule (improvement (fin 1.9) (fin 1.0) .MINIMIZE) (fin 1.9) (fin 0.5)
      = false := by
  have B4 : round64 (1 / 4) = fin (1 / 4) :=
    SCIP_Real.round64_anchor 1 2 (by norm_num) (by norm_num) (by norm_num) (by norm_num)
      (by norm_num)
  have B2 : round64 (1 / 2) = fin (1 / 2) :=
    SCIP_Real.round64_anchor 1 1 (by norm_num) (by norm_num) (by norm_num) (by norm_num)
      (by norm_num)
  have B34 : round64 (3 / 4) = fin (3 / 4) :=
    SCIP_Real.round64_anchor 3 2 (by norm_num) (by norm_num) (by norm_num) (by norm_num)
      (by norm_num)
  have B1516 : round64 (15 / 16) = fin (15 / 16) :=
    SCIP_Real.round64_anchor 15 4 (by norm_num) (by norm_num) (by norm_num) (by norm_num)
      (by norm_num)
  obtain ⟨r, hr, hr1, hr2⟩ := SCIP_Real.sub_between (a := 1.9) (b := 1.0) B34 B1516
    (by norm_num) (by norm_num)
  have hi : improvement (fin 1.9) (fin 1.0) .MINIMIZE = fin r := hr
  have hfl : ⌊|(1.9 : ℚ)|⌋ = 1 := by
    rw [Int.floor_eq_iff]; norm_num [abs_of_pos]
  have h1 : (1.9 : ℚ) ≠ 0 := by norm_num
  have h2 : |(1.9 : ℚ)| < 2147483648 := by norm_num [abs_of_pos]
  have h3 : gt (improvement (fin 1.9) (fin 1.0) .MINIMIZE) (fin 0) = true := by
    rw [hi]; simp only [gt, lt, decide_eq_true_eq]; linarith
  have h4 : gt (improvement (fin 1.9) (fin 1.0) .MINIMIZE) INFINITY = false := by
    rw [INFINITY, SCIP_Real.gt_pinf]
  refine ⟨⟨h1, h2, by norm_num [abs_of_pos], h3, h4⟩, hfl, ?_, ?_⟩
  · rw [significant_relative_truncated 1.9 (fin 1.0) INFINITY (fin 0.5) .MINIMIZE h1 h2 h3 h4,
      hfl, hi]
    obtain ⟨q, hq, hq1, _⟩ := SCIP_Real.div_between (a := r) (b := ((1 : Int) : ℚ))
      (by norm_num) B34 B1516 (by norm_num; exact hr1) (by norm_num; exact hr2)
    rw [ofInt, hq]
    simp only [gt, lt, Except.ok.injEq, decide_eq_true_eq]
    norm_num
    linarith
  · have hf : fabs (fin 1.9) = fin 1.9 := by norm_num [fabs]
    obtain ⟨q, hq, _, hq2⟩ := SCIP_Real.div_between (a := r) (b := 1.9) (by norm_num)
      B4 B2 (by rw [le_div_iff₀ (by norm_num)]; linarith)
      (by rw [div_le_iff₀ (by norm_num)]; linarith)
    rw [specRelativeRule, hi, hf, hq]
    simp only [gt, lt, decide_eq_false_iff_not, not_lt]
    norm_num
    exact hq2

/-! ## Monotonicity in the tolerances and bounds -/

theorem SCIP_Real.gt_of_gt_of_le (x y z : SCIP_Real) (h : gt x y = true)
    (hz : le z y = true) : gt x z = true := by
  cases x <;> cases y <;> cases z <;> simp_all [gt, lt, le]
  exact lt_of_le_of_lt hz h

theorem SCIP_Real.gt_ninf_of_gt (x y : SCIP_Real) (h : gt x y = true) :
    gt x ninf = true := by
  cases x <;> cases y <;> simp_all [gt, lt]

theorem SCIP_Real.ne_nan_of_gt (x y : SCIP_Real) (h : gt x y = true) :
    x ≠ nan ∧ y ≠ nan := by
  cases x <;> cases y <;> simp_all [gt, lt]

/-- A relative branch that returns TRUE still returns TRUE when its test is replaced
by a weaker one. -/
theorem C.abs_toInt_mono (x : SCIP_Real) (g g' : Int → Bool)
    (hg : ∀ d, g d = true → g' d = true)
    (h : (C.toInt x >>= fun i => C.abs i >>= fun d => (pure (g d) : Except Fault Bool))
      = .ok true) :
    (C.toInt x >>= fun i => C.abs i >>= fun d => (pure (g' d) : Except Fault Bool))
      = .ok true := by
  cases hx : C.toInt x with
  | error f => simp [hx, bind, Except.bind] at h
  | ok i =>
    cases hi : C.abs i with
    | error f => simp [hx, hi, bind, Except.bind] at h
    | ok d =>
      simp only [hx, hi, bind, Except.bind, pure, Except.pure] at h ⊢
      have hd : g d = true := by simpa using h
      simp [hg d hd]

/-- Claim C19: `significant` is antitone in its tolerances.  If a call returns TRUE,
the call with the same values and sense and with tolerances that are not larger
(`abstol' <= abstol`, `reltol' <= reltol`) returns TRUE as well. -/
theorem significant_antitone_tolerances
    (old new abstol abstol' reltol reltol' : SCIP_Real) (sense : SCIP_OBJSENSE)
    (ha : le abstol' abstol = true) (hr : le reltol' reltol = true)
    (h : significant old new abstol reltol sense = .ok true) :
    significant old new abstol' reltol' sense = .ok true := by
  have hmono : ∀ d : Int,
      gt (SCIP_Real.div (improvement old new sense) (ofInt d)) reltol = true →
      gt (SCIP_Real.div (improvement old new sense) (ofInt d)) reltol' = true :=
    fun d hd => SCIP_Real.gt_of_gt_of_le _ _ _ hd hr
  cases hle : le (improvement old new sense) (fin 0) with
  | true => simp [significant, hle] at h
  | false =>
    cases hgt' : gt (improvement old new sense) abstol' with
    | true => simp [significant, hle, hgt']
    | false =>
      cases hgt : gt (improvement old new sense) abstol with
      | true =>
        have := SCIP_Real.gt_of_gt_of_le _ _ _ hgt ha
        rw [hgt'] at this
        exact absurd this (by simp)
      | false =>
        cases hold : ne old (fin 0) with
        | true =>
          simp only [significant, hle, hgt, hgt', hold, if_true, Bool.false_eq_true,
            if_false] at h ⊢
          exact C.abs_toInt_mono old _ _ hmono h
        | false =>
          cases hnew : ne new (fin 0) with
          | true =>
            simp only [significant, hle, hgt, hgt', hold, hnew, if_true,
              Bool.false_eq_true, if_false] at h ⊢
            exact C.abs_toInt_mono new _ _ hmono h
          | false =>
            simp [significant, hle, hgt, hold, hnew] at h

/-- An instance of C19 from the unit tests: `significant(1.003, 1.001, INFINITY, 0.001,
MINIMIZE)` is TRUE, and so is the call with `abstol = 1.0` and `reltol = 0.0005`. -/
theorem significant_antitone_tolerances_witness :
    le (fin 1.0) INFINITY = true ∧ le (fin 0.0005) (fin 0.001) = true ∧
    significant (fin 1.003) (fin 1.001) INFINITY (fin 0.001) .MINIMIZE = .ok true ∧
    significant (fin 1.003) (fin 1.001) (fin 1.0) (fin 0.0005) .MINIMIZE = .ok true := by
  have h1 : le (fin 1.0) INFINITY = true := by norm_num [le, INFINITY]
  have h2 : le (fin 0.0005) (fin 0.001) = true := by norm_num [le]
  have A9 : round64 (1 / 512) = fin (1 / 512) :=
    SCIP_Real.round64_anchor 1 9 (by norm_num) (by norm_num) (by norm_num) (by norm_num)
      (by norm_num)
  have A8 : round64 (1 / 256) = fin (1 / 256) :=
    SCIP_Real.round64_anchor 1 8 (by norm_num) (by norm_num) (by norm_num) (by norm_num)
      (by norm_num)
  obtain ⟨r, hr, hr1, hr2⟩ := SCIP_Real.sub_between (a := 1.003) (b := 1.001) A9 A8
    (by norm_num) (by norm_num)
  have hi : improvement (fin 1.003) (fin 1.001) .MINIMIZE = fin r := hr
  have h3 : significant (fin 1.003) (fin 1.001) INFINITY (fin 0.001) .MINIMIZE
      = .ok true := by
    rw [significant_relative_old _ _ _ _ _ 1
      (by rw [hi]; simp only [le, decide_eq_false_iff_not, not_le]; linarith)
      (by rw [INFINITY, SCIP_Real.gt_pinf]) (by norm_num [ne, eq])
      (C.abs_toInt_eval _ 1 (by norm_num [abs_of_pos]) (by norm_num [abs_of_pos])
        (by norm_num [abs_of_pos])), hi]
    obtain ⟨q, hq, hq1, _⟩ := SCIP_Real.div_between (a := r) (b := ((1 : Int) : ℚ))
      (by norm_num) A9 A8 (by norm_num; exact hr1) (by norm_num; exact hr2)
    rw [ofInt, hq]
    simp only [gt, lt, Except.ok.injEq, decide_eq_true_eq]
    norm_num
    linarith
  exact ⟨h1, h2, h3, significant_antitone_tolerances _ _ _ _ _ _ _ h1 h2 h3⟩

theorem SCIP_Real.signedInf_of_pos (s : ℚ) (h : 0 < s) : signedInf s = pinf := by
  simp [signedInf, h]

theorem SCIP_Real.signedInf_of_neg (s : ℚ) (h : s < 0) : signedInf s = ninf := by
  simp [signedInf, h, not_lt.mpr h.le]

theorem SCIP_Real.signedInf_zero : signedInf 0 = nan := by
  simp [signedInf]

/-- The fractional ceiling is monotone in `fractime` at a current time that is not
negative, provided `fractime` is not `-inf` or the recorded time is not negative. -/
theorem shouldStop_fraction_mono (fractime fractime' lastsol current : SCIP_Real)
    (hcur : le (fin 0) current = true) (hf : le fractime fractime' = true)
    (hdom : fractime ≠ ninf ∨ le (fin 0) lastsol = true)
    (h : gt (sub current lastsol) (mul fractime' current) = true) :
    gt (sub current lastsol) (mul fractime current) = true := by
  cases current with
  | fin c =>
    have hc : 0 ≤ c := by simpa [le] using hcur
    cases fractime with
    | fin f =>
      cases fractime' with
      | fin f' =>
        have hff : f ≤ f' := by simpa [le] using hf
        exact SCIP_Real.gt_of_gt_of_le _ _ _ h
          (SCIP_Real.round64_mono (mul_le_mul_of_nonneg_right hff hc))
      | pinf =>
        rcases eq_or_lt_of_le hc with hc0 | hcpos
        · subst hc0
          simp [mul, SCIP_Real.signedInf_zero, gt, lt] at h
        · simp [mul, SCIP_Real.signedInf_of_pos _ hcpos, SCIP_Real.gt_pinf] at h
      | ninf => simp [le] at hf
      | nan => simp [le] at hf
    | pinf => cases fractime' <;> simp_all [le]
    | ninf =>
      rcases eq_or_lt_of_le hc with hc0 | hcpos
      · subst hc0
        have hl : le (fin 0) lastsol = true := by
          rcases hdom with hd | hd
          · exact absurd rfl hd
          · exact hd
        have hs : le (sub (fin 0) lastsol) (fin 0) = true := by
          cases lastsol with
          | fin l =>
            have hl0 : 0 ≤ l := by simpa [le] using hl
            exact SCIP_Real.round64_nonpos (by linarith)
          | pinf => simp [sub, le]
          | ninf => simp [le] at hl
          | nan => simp [le] at hl
        cases fractime' with
        | fin f' =>
          have hm : mul (fin f') (fin 0) = fin 0 := by simp [mul, SCIP_Real.round64_zero]
          rw [hm, SCIP_Real.gt_eq_false_of_le _ _ hs] at h
          exact absurd h (by simp)
        | pinf => simp [mul, SCIP_Real.signedInf_zero, gt, lt] at h
        | ninf => simp [mul, SCIP_Real.signedInf_zero, gt, lt] at h
        | nan => simp [le] at hf
      · have hm : mul ninf (fin c) = ninf := by
          simp [mul, SCIP_Real.signedInf_of_neg (-c) (by linarith)]
        rw [hm]
        exact SCIP_Real.gt_ninf_of_gt _ _ h
    | nan => simp [le] at hf
  | pinf =>
    cases fractime with
    | fin f =>
      cases fractime' with
      | fin f' =>
        have hff : f ≤ f' := by simpa [le] using hf
        rcases lt_trichotomy f' 0 with h1 | h1 | h1
        · have h2 : f < 0 := lt_of_le_of_lt hff h1
          simp_all [mul, SCIP_Real.signedInf_of_neg]
        · subst h1
          cases lastsol <;> simp [mul, SCIP_Real.signedInf_zero, gt, lt, sub] at h
        · cases lastsol <;>
            simp [mul, SCIP_Real.signedInf_of_pos _ h1, gt, lt, sub] at h
      | pinf => cases lastsol <;> simp [mul, gt, lt, sub] at h
      | ninf => simp [le] at hf
      | nan => simp [le] at hf
    | pinf =>
      cases fractime' <;> simp_all [le]
    | ninf =>
      cases fractime' with
      | fin f' =>
        rcases lt_trichotomy f' 0 with h1 | h1 | h1
        · simpa [mul, SCIP_Real.signedInf_of_neg _ h1] using h
        · subst h1
          cases lastsol <;> simp [mul, SCIP_Real.signedInf_zero, gt, lt, sub] at h
        · cases lastsol <;>
            simp [mul, SCIP_Real.signedInf_of_pos _ h1, gt, lt, sub] at h
      | pinf => cases lastsol <;> simp [mul, gt, lt, sub] at h
      | ninf => exact h
      | nan => simp [le] at hf
    | nan => simp [le] at hf
  | ninf => simp [le] at hcur
  | nan => simp [le] at hcur

/-- Claim C20: `shouldStop` is antitone in its bounds.  At a current time that is not
negative, if the call with the bounds `mintime'`, `maxtime'`, `fractime'` returns
TRUE, so does the call with bounds that are not larger (`mintime <= mintime'`,
`maxtime <= maxtime'`, `fractime <= fractime'`).  This holds whenever the recorded
time is not negative, and for any recorded time when `fractime` is not `-inf`, as
every value of its range `[0, 1]` is. -/
theorem shouldStop_antitone_bounds
    (mintime mintime' maxtime maxtime' fractime fractime' lastsol current : SCIP_Real)
    (hcur : le (fin 0) current = true)
    (hdom : fractime ≠ ninf ∨ le (fin 0) lastsol = true)
    (hmin : le mintime mintime' = true) (hmax : le maxtime maxtime' = true)
    (hfrac : le fractime fractime' = true)
    (h : shouldStop mintime' maxtime' fractime' lastsol current = true) :
    shouldStop mintime maxtime fractime lastsol current = true := by
  cases hle' : le (sub current lastsol) mintime' with
  | true => simp [shouldStop, hle'] at h
  | false =>
    have hle : le (sub current lastsol) mintime = false := by
      cases hx : le (sub current lastsol) mintime with
      | false => rfl
      | true =>
        have := SCIP_Real.le_of_le_of_le _ _ _ hx hmin
        rw [hle'] at this
        exact absurd this (by simp)
    cases hgt' : gt (sub current lastsol) maxtime' with
    | true =>
      have hgt := SCIP_Real.gt_of_gt_of_le _ _ _ hgt' hmax
      simp [shouldStop, hle, hgt]
    | false =>
      have hfr' : gt (sub current lastsol) (mul fractime' current) = true := by
        cases hx : gt (sub current lastsol) (mul fractime' current) with
        | true => rfl
        | false => simp [shouldStop, hle', hgt', hx] at h
      have hfr := shouldStop_fraction_mono fractime fractime' lastsol current hcur hfrac
        hdom hfr'
      cases hgt : gt (sub current lastsol) maxtime <;> simp [shouldStop, hle, hgt, hfr]

/-- An instance of C20 from the unit tests: `shouldStop(2.0, INFINITY, 0.25, 0.0, 3.0)`
is TRUE, and so is the call with the smaller bounds `1.0`, `2.5` and `0.1`. -/
theorem shouldStop_antitone_bounds_witness :
    le (fin 0) (fin 3.0) = true ∧ le (fin 0) (fin 0.0) = true ∧
    le (fin 1.0) (fin 2.0) = true ∧ le (fin 2.5) INFINITY = true ∧
    le (fin 0.1) (fin 0.25) = true ∧
    shouldStop (fin 2.0) INFINITY (fin 0.25) (fin 0.0) (fin 3.0) = true ∧
    shouldStop (fin 1.0) (fin 2.5) (fin 0.1) (fin 0.0) (fin 3.0) = true := by
  have h1 : le (fin 0) (fin 3.0) = true := by norm_num [le]
  have h2 : le (fin 0) (fin 0.0) = true := by norm_num [le]
  have h3 : le (fin 1.0) (fin 2.0) = true := by norm_num [le]
  have h4 : le (fin 2.5) INFINITY = true := by norm_num [le, INFINITY]
  have h5 : le (fin 0.1) (fin 0.25) = true := by norm_num [le]
  have s3 : sub (fin 3.0) (fin 0.0) = fin 3 :=
    SCIP_Real.sub_eval 0 3 (by norm_num) (by norm_num) (by norm_num) (by norm_num)
  have m3 : mul (fin 0.25) (fin 3.0) = fin (3 / 4) :=
    SCIP_Real.mul_eval 2 3 (by norm_num) (by norm_num) (by norm_num) (by norm_num)
  have h6 : shouldStop (fin 2.0) INFINITY (fin 0.25) (fin 0.0) (fin 3.0) = true :=
    shouldStop_of_gt_frac _ _ _ _ _ (by rw [s3]; norm_num [le])
      (by rw [s3, m3]; norm_num [gt, lt])
  exact ⟨h1, h2, h3, h4, h5, h6,
    shouldStop_antitone_bounds _ _ _ _ _ _ _ _ h1 (Or.inr h2) h3 h4 h5 h6⟩

end PrimalStall
